import Mathlib

/-!
Verification of the DS-Star pipeline (GE appliances AI tool prototype).

The JavaScript sources are embedded shallowly: strings become `List Char`,
the regex-based scanners become executable scanning functions with the same
match semantics, and the orchestrator loop becomes a state-transition
function parameterized by an environment that supplies the outcomes of the
external calls (LLM, critics, browser harness).
-/

set_option maxHeartbeats 4000000
set_option maxRecDepth 100000

namespace GEA

/-- JavaScript strings are modelled as lists of characters. -/
abbrev Str := List Char

/-- The single-quote character (written by code to avoid literal quoting issues). -/
def sq : Char := Char.ofNat 39

/-- The backtick character. -/
def bq : Char := Char.ofNat 96

/-- Tail-recursive list length (the kernel evaluates it iteratively). -/
def lenTR (s : List Char) : Nat := s.foldl (fun n _ => n + 1) 0

/-- Tail-recursive Boolean equality on strings (kernel-friendly). -/
def listEqB : Str → Str → Bool
  | [], [] => true
  | [], _ :: _ => false
  | _ :: _, [] => false
  | a :: as, b :: bs => a == b && listEqB as bs

/-- Lowercase a string, modelling JavaScript `toLowerCase` / regex `/i` on ASCII. -/
def lowerS (s : Str) : Str := s.map Char.toLower

/-- Boolean prefix test (JS `startsWith` / anchored regex literal). -/
def isPre : Str → Str → Bool
  | [], _ => true
  | _ :: _, [] => false
  | p :: ps, c :: cs => p == c && isPre ps cs

/-- Case-insensitive prefix test (regex literal under the `/i` flag). -/
def isPreCI : Str → Str → Bool
  | [], _ => true
  | _ :: _, [] => false
  | p :: ps, c :: cs => p.toLower == c.toLower && isPreCI ps cs

/-- Boolean substring test, modelling JS `String.prototype.includes`. -/
def hasSub (pat : Str) : Str → Bool
  | [] => isPre pat []
  | c :: rest => isPre pat (c :: rest) || hasSub pat rest

/-- Case-insensitive substring test (`pat` must be given lowercase). -/
def hasSubCI (pat : Str) (s : Str) : Bool := hasSub pat (lowerS s)

/-- Tail-recursive worker for `splitFirst`. -/
def splitFirstGo (pat : Str) (acc : Str) : Str → Option (Str × Str)
  | [] => if pat.isEmpty then some (acc.reverse, []) else none
  | c :: rest =>
    if isPre pat (c :: rest) then some (acc.reverse, (c :: rest).drop (lenTR pat))
    else splitFirstGo pat (c :: acc) rest

/-- Split at the first occurrence of `pat`: returns the part before the match
and the part after it (the match itself is consumed).  Models the leftmost
match of a literal regex. -/
def splitFirst (pat : Str) (s : Str) : Option (Str × Str) := splitFirstGo pat [] s

/-- Tail-recursive worker for `splitFirstCI`. -/
def splitFirstCIGo (pat : Str) (acc : Str) : Str → Option (Str × Str)
  | [] => if pat.isEmpty then some (acc.reverse, []) else none
  | c :: rest =>
    if isPreCI pat (c :: rest) then some (acc.reverse, (c :: rest).drop (lenTR pat))
    else splitFirstCIGo pat (c :: acc) rest

/-- Case-insensitive variant of `splitFirst`. -/
def splitFirstCI (pat : Str) (s : Str) : Option (Str × Str) := splitFirstCIGo pat [] s

/-- Worker for `splitFirstCI3`. -/
def splitFirstCI3Go (pat : Str) (acc : Str) : Str → Option (Str × Str × Str)
  | [] => if pat.isEmpty then some (acc.reverse, [], []) else none
  | c :: rest =>
    if isPreCI pat (c :: rest) then
      some (acc.reverse, (c :: rest).take (lenTR pat), (c :: rest).drop (lenTR pat))
    else splitFirstCI3Go pat (c :: acc) rest

/-- Case-insensitive split that also returns the matched text verbatim. -/
def splitFirstCI3 (pat : Str) (s : Str) : Option (Str × Str × Str) :=
  splitFirstCI3Go pat [] s

/-! ## Security scanner — `src/critic/securityScanner.js` -/

/-- Consume a string literal body after its opening quote `q`, exactly as the
scanner's while-loop does: stop at the first `q` whose previous character is
not a backslash, and also consume that closing quote.  `prev` starts as the
opening quote itself. -/
def strDelim (q : Char) (prev : Char) : Str → Str
  | [] => []
  | c :: rest => if c == q && prev != '\\' then rest else strDelim q c rest

/-- Skip a `//` comment body: stop at the newline without consuming it. -/
def dropLineCm : Str → Str
  | [] => []
  | c :: rest => if c == '\n' then c :: rest else dropLineCm rest

/-- Skip a block comment body through the closing asterisk-slash. -/
def dropBlockCm : Str → Str
  | [] => []
  | '*' :: '/' :: rest => rest
  | _ :: rest => dropBlockCm rest

/-- Worker for `stripCommentsAndStrings`.  The first list is fuel (one unit
per loop step; the input itself is enough since every step consumes at least
one input character); list-shaped fuel keeps kernel reduction shallow. -/
def stripGo : List Char → Str → Str
  | _, [] => []
  | [], _ => []
  | _ :: fl, c :: rest =>
    if c == '/' then
      match rest with
      | '/' :: r2 => '\n' :: stripGo fl (dropLineCm r2)
      | '*' :: r2 => stripGo fl (dropBlockCm r2)
      | _ => c :: stripGo fl rest
    else if c == '"' then '"' :: '"' :: stripGo fl (strDelim '"' '"' rest)
    else if c == sq then sq :: sq :: stripGo fl (strDelim sq sq rest)
    else if c == bq then bq :: bq :: stripGo fl (strDelim bq bq rest)
    else c :: stripGo fl rest

/-- `stripCommentsAndStrings` from `securityScanner.js`: remove `//` and
block comments, and replace every string literal by an empty one. -/
def stripCommentsAndStrings (code : Str) : Str := stripGo code code

/-- JS regex `\w` character class. -/
def isWordChar (c : Char) : Bool := c.isAlpha || c.isDigit || c == '_'

/-- JS regex `\s` character class (the members that can occur here). -/
def isWsJS (c : Char) : Bool :=
  c == ' ' || c == '\t' || c == '\n' || c == '\r' ||
  c == Char.ofNat 11 || c == Char.ofNat 12 || c == Char.ofNat 160

/-- Word-boundary test on the left of a match (`\b` before a word character). -/
def boundaryL (prev : Option Char) : Bool :=
  match prev with
  | none => true
  | some c => !isWordChar c

/-- Match regex `\s*\(` and return how many characters it consumed. -/
def matchCallAfter (s : Str) : Option Nat :=
  let k := (s.takeWhile isWsJS).length
  match s.drop k with
  | '(' :: _ => some (k + 1)
  | _ => none

/-- Matcher for `\bfetch\s*\(`. -/
def mFetch (prev : Option Char) (s : Str) : Option Nat :=
  if boundaryL prev && isPre "fetch".toList s then
    (matchCallAfter (s.drop 5)).map (fun k => 5 + k)
  else none

/-- Matcher for `\baxios\.`. -/
def mAxiosDot (prev : Option Char) (s : Str) : Option Nat :=
  if boundaryL prev && isPre "axios.".toList s then some 6 else none

/-- Matcher for `\baxios\s*\(`. -/
def mAxiosCall (prev : Option Char) (s : Str) : Option Nat :=
  if boundaryL prev && isPre "axios".toList s then
    (matchCallAfter (s.drop 5)).map (fun k => 5 + k)
  else none

/-- Matcher for `\bXMLHttpRequest\b`. -/
def mXHR (prev : Option Char) (s : Str) : Option Nat :=
  if boundaryL prev && isPre "XMLHttpRequest".toList s then
    match s.drop 14 with
    | [] => some 14
    | c :: _ => if isWordChar c then none else some 14
  else none

/-- Matcher for `\$\.ajax\s*\(` (no word boundary in the source regex). -/
def mDollarAjax (_prev : Option Char) (s : Str) : Option Nat :=
  if isPre "$.ajax".toList s then
    (matchCallAfter (s.drop 6)).map (fun k => 6 + k)
  else none

/-- Matcher for `jQuery\.ajax\s*\(`. -/
def mJQueryAjax (_prev : Option Char) (s : Str) : Option Nat :=
  if isPre "jQuery.ajax".toList s then
    (matchCallAfter (s.drop 11)).map (fun k => 11 + k)
  else none

/-- Matcher for `\beval\s*\(`. -/
def mEvalCall (prev : Option Char) (s : Str) : Option Nat :=
  if boundaryL prev && isPre "eval".toList s then
    (matchCallAfter (s.drop 4)).map (fun k => 4 + k)
  else none

/-- Matcher for `new\s+Function\s*\(` (no word boundary in the source regex). -/
def mNewFunction (_prev : Option Char) (s : Str) : Option Nat :=
  if isPre "new".toList s then
    let r := s.drop 3
    let k := (r.takeWhile isWsJS).length
    if k == 0 then none
    else if isPre "Function".toList (r.drop k) then
      (matchCallAfter (r.drop (k + 8))).map (fun j => 3 + k + 8 + j)
    else none
  else none

/-- Case-insensitive matcher for a banned tag literal followed by `\b`. -/
def mTag (lit : Str) (_prev : Option Char) (s : Str) : Option Nat :=
  if isPreCI lit s then
    match s.drop lit.length with
    | [] => some lit.length
    | c :: _ => if isWordChar c then none else some lit.length
  else none

/-- A banned pattern: canonical name, fix hint, and the regex's matcher. -/
structure BannedPattern where
  name : String
  fix : String
  matcher : Option Char → Str → Option Nat

/-- `BANNED_PATTERNS` from `securityScanner.js`. -/
def BANNED_PATTERNS : List BannedPattern :=
  [⟨"fetch()", "Use window.geaRuntimeLLM() for AI calls", mFetch⟩,
   ⟨"axios", "Use window.geaRuntimeLLM() for AI calls", mAxiosDot⟩,
   ⟨"axios()", "Use window.geaRuntimeLLM() for AI calls", mAxiosCall⟩,
   ⟨"XMLHttpRequest", "Use window.geaRuntimeLLM() for AI calls", mXHR⟩,
   ⟨"$.ajax()", "Use window.geaRuntimeLLM() for AI calls", mDollarAjax⟩,
   ⟨"jQuery.ajax()", "Use window.geaRuntimeLLM() for AI calls", mJQueryAjax⟩,
   ⟨"eval()", "Remove eval, use safe alternatives", mEvalCall⟩,
   ⟨"new Function()", "Remove dynamic function creation", mNewFunction⟩]

/-- `BANNED_TAGS` from `securityScanner.js`. -/
def BANNED_TAGS : List BannedPattern :=
  [⟨"<iframe>", "Remove iframe, use <div> containers", mTag "<iframe>".toList.dropLast⟩,
   ⟨"<embed>", "Remove embed tag", mTag "<embed>".toList.dropLast⟩,
   ⟨"<object>", "Remove object tag", mTag "<object>".toList.dropLast⟩]

/-- Global scan (`String.prototype.matchAll` semantics): collect the suffix
of the input starting at every non-overlapping match, resuming right after
each match.  (A match's `substring(index)` window is a `take` of its suffix.)
The first list is fuel, one unit per consumed character. -/
def scanPatGo (m : Option Char → Str → Option Nat) :
    List Char → Option Char → Str → List Str
  | _, _, [] => []
  | [], _, _ => []
  | _ :: fl, prev, c :: rest =>
    match m prev (c :: rest) with
    | some L =>
      (c :: rest) ::
        scanPatGo m fl (some (((c :: rest).take L).getLastD c)) ((c :: rest).drop L)
    | none => scanPatGo m fl (some c) rest

/-- The suffixes at all matches of a banned pattern in `code`. -/
def scanMatches (p : BannedPattern) (code : Str) : List Str :=
  scanPatGo p.matcher code none code

/-! ### Code extraction (`extractExecutableCode`) -/

/-- Try to match `<script\b[^>]*>([\s\S]*?)<\/script>` at the head of `s`;
return the captured body and the remainder after the closing tag. -/
def matchScriptAt (s : Str) : Option (Str × Str) :=
  if isPreCI "<script".toList s then
    match s.drop 7 with
    | [] => none
    | c :: _ =>
      if isWordChar c then none
      else
        match splitFirst ['>'] (s.drop 7) with
        | none => none
        | some (_, afterGt) =>
          match splitFirstCI "</script>".toList afterGt with
          | none => none
          | some (body, rest) => some (body, rest)
  else none

/-- Scan collecting every script body in document order (list-shaped fuel). -/
def findScriptsGo : List Char → Str → List Str
  | _, [] => []
  | [], _ => []
  | _ :: fl, c :: rest =>
    match matchScriptAt (c :: rest) with
    | some (body, after) => body :: findScriptsGo fl after
    | none => findScriptsGo fl rest

/-- All script bodies of an HTML document. -/
def findScripts (html : Str) : List Str := findScriptsGo html html

/-- Try to match `\son[a-z]+\s*=\s*(?:"([^"]*)"|'([^']*)'|([^>\s]*))` at the
head of `s` (with the `/i` flag); return the captured handler value and the
remainder after the match. -/
def matchHandlerAt (s : Str) : Option (Str × Str) :=
  match s with
  | [] => none
  | c :: rest =>
    if isWsJS c then
      if isPreCI "on".toList rest then
        let r2 := rest.drop 2
        let letters := r2.takeWhile (fun d => d.isAlpha)
        if letters.isEmpty then none
        else
          let r3 := r2.drop letters.length
          let r4 := r3.drop (r3.takeWhile isWsJS).length
          match r4 with
          | '=' :: r5 =>
            let r6 := r5.drop (r5.takeWhile isWsJS).length
            let unquoted : Option (Str × Str) :=
              let v := r6.takeWhile (fun d => !(d == '>' || isWsJS d))
              some (v, r6.drop (lenTR v))
            match r6 with
            | '"' :: r7 =>
              match splitFirst ['"'] r7 with
              | some (v, r8) => some (v, r8)
              | none => unquoted
            | d :: r7 =>
              if d == sq then
                match splitFirst [sq] r7 with
                | some (v, r8) => some (v, r8)
                | none => unquoted
              else unquoted
            | [] => unquoted
          | _ => none
      else none
    else none

/-- Scan collecting every inline event-handler value (list-shaped fuel). -/
def findHandlersGo : List Char → Str → List Str
  | _, [] => []
  | [], _ => []
  | _ :: fl, c :: rest =>
    match matchHandlerAt (c :: rest) with
    | some (v, after) => v :: findHandlersGo fl after
    | none => findHandlersGo fl rest

/-- All inline event-handler values of an HTML document. -/
def findHandlers (html : Str) : List Str := findHandlersGo html html

/-- `extractExecutableCode`: concatenate script bodies then handler values,
each followed by a newline. -/
def extractExecutableCode (html : Str) : Str :=
  ((findScripts html).map (· ++ ['\n'])).flatten ++
    ((findHandlers html).map (· ++ ['\n'])).flatten

/-! ### Violations and the gate -/

/-- A reported violation (canonical pattern name and occurrence count). -/
structure Violation where
  pattern : String
  count : Nat
deriving DecidableEq, Repr

/-- Does a 20-character window contain an empty string literal footprint? -/
def hasEmptyLit (s : Str) : Bool :=
  hasSub [sq, sq] s || hasSub ['"', '"'] s || hasSub [bq, bq] s

/-- The empty-URL leniency check: every match is followed (within the
20-character window that starts at the match) by an empty string literal. -/
def allEmptyAt (ms : List Str) : Bool :=
  ms.all (fun suf => hasEmptyLit (suf.take 20))

/-- The three names that enjoy the empty-URL leniency. -/
def fetchFamily : List String := ["fetch()", "axios", "axios()"]

/-- The verdict a single banned tag contributes on the raw HTML. -/
def tagVerdict (html : Str) (t : BannedPattern) : Option Violation :=
  if (scanMatches t html).isEmpty then none
  else some ⟨t.name, (scanMatches t html).length⟩

/-- Violations contributed by `BANNED_TAGS` on the raw HTML. -/
def tagViolations (html : Str) : List Violation :=
  BANNED_TAGS.filterMap (tagVerdict html)

/-- The verdict a single banned call pattern contributes on the sanitized
code, including the empty-URL leniency for the fetch family. -/
def patternVerdict (code : Str) (p : BannedPattern) : Option Violation :=
  if (scanMatches p code).isEmpty then none
  else if decide (p.name ∈ fetchFamily) && allEmptyAt (scanMatches p code) then none
  else some ⟨p.name, (scanMatches p code).length⟩

/-- Violations contributed by `BANNED_PATTERNS` on the sanitized code. -/
def patternViolations (code : Str) : List Violation :=
  BANNED_PATTERNS.filterMap (patternVerdict code)

/-- Result of `scanForSecurityViolations`. -/
structure ScanResult where
  passed : Bool
  violations : List Violation
deriving DecidableEq, Repr

/-- `scanForSecurityViolations`: banned tags on the raw HTML, then banned
call patterns on the stripped executable code, with the empty-URL leniency. -/
def scanForSecurityViolations (html : Str) : ScanResult :=
  let vio := tagViolations html ++
    patternViolations (stripCommentsAndStrings (extractExecutableCode html))
  ⟨vio.isEmpty, vio⟩

/-- Result of `checkBasicStructure`. -/
structure StructureResult where
  valid : Bool
  errors : List String
deriving DecidableEq, Repr

/-- `checkBasicStructure`: require `<!DOCTYPE`/`<html` (case-insensitive,
anywhere) and a closing `</html>`. -/
def checkBasicStructure (html : Str) : StructureResult :=
  let errors :=
    (if hasSubCI "<!doctype".toList html || hasSubCI "<html".toList html then []
     else ["Missing <!DOCTYPE html> or <html> tag"]) ++
    (if hasSubCI "</html>".toList html then []
     else ["Missing closing </html> tag"])
  ⟨errors.isEmpty, errors⟩

/-- Result of `runSecurityGate`. -/
structure GateResult where
  passed : Bool
  securityViolations : List Violation
  structureErrors : List String
deriving DecidableEq, Repr

/-- `runSecurityGate`: the deterministic CI gate. -/
def runSecurityGate (html : Str) : GateResult :=
  let security := scanForSecurityViolations html
  let struc := checkBasicStructure html
  ⟨security.passed && struc.valid, security.violations, struc.errors⟩

/-! ## Safety transformer — `ensureCspMeta` / `injectRuntimeHelpers` -/

/-- Tail-recursive worker for `splitMatch`.  The matcher returns the matched
segment and the remainder. -/
def splitMatchGo (m : Str → Option (Str × Str)) (acc : Str) :
    Str → Option (Str × Str × Str)
  | [] => none
  | c :: rest =>
    match m (c :: rest) with
    | some (mm, q) => some (acc.reverse, mm, q)
    | none => splitMatchGo m (c :: acc) rest

/-- Generic leftmost-match splitter: split the input into the part before the
first match of `m`, the matched segment, and the remainder. -/
def splitMatch (m : Str → Option (Str × Str)) (s : Str) : Option (Str × Str × Str) :=
  splitMatchGo m [] s

/-- A lowercase hexadecimal digit, as produced by `JSON.stringify`. -/
def hexDigit (n : Nat) : Char :=
  if n < 10 then Char.ofNat (48 + n) else Char.ofNat (87 + n)

/-- Escape one character the way `JSON.stringify` escapes string contents. -/
def jsonEscChar (c : Char) : Str :=
  if c == '"' then ['\\', '"']
  else if c == '\\' then ['\\', '\\']
  else if c == '\n' then ['\\', 'n']
  else if c == '\r' then ['\\', 'r']
  else if c == '\t' then ['\\', 't']
  else if c == Char.ofNat 8 then ['\\', 'b']
  else if c == Char.ofNat 12 then ['\\', 'f']
  else if c.toNat < 32 then
    ['\\', 'u', '0', '0', hexDigit (c.toNat / 16), hexDigit (c.toNat % 16)]
  else [c]

/-- `JSON.stringify` on a string value. -/
def jsonEncodeStr (s : Str) : Str := '"' :: ((s.map jsonEscChar).flatten ++ ['"'])

/-- The fixed CSP policy string (`CSP_CONTENT` in the source). -/
def CSP_CONTENT : String :=
  "default-src \x27none\x27; img-src data: https: blob:; style-src \x27unsafe-inline\x27 https://fonts.googleapis.com https://cdn.jsdelivr.net https://cdnjs.cloudflare.com https://unpkg.com https://cdn.tailwindcss.com; font-src https://fonts.gstatic.com https://cdn.jsdelivr.net https://cdnjs.cloudflare.com; script-src \x27unsafe-inline\x27 https://cdn.jsdelivr.net https://cdnjs.cloudflare.com https://unpkg.com https://d3js.org https://cdn.plot.ly https://cdn.tailwindcss.com blob:; worker-src blob:; connect-src \x27self\x27 http://localhost:* http://127.0.0.1:* https://*.tile.openstreetmap.org https://cdn.jsdelivr.net; base-uri \x27none\x27; form-action \x27none\x27;"

/-- The meta element inserted by `ensureCspMeta`. -/
def cspMeta : Str :=
  "<meta http-equiv=\"Content-Security-Policy\" content=\"".toList ++
    CSP_CONTENT.toList ++ "\">".toList

/-- Matcher for `<head[^>]*>` (case-insensitive): returns the matched tag
text and the remainder. -/
def mHeadTag (s : Str) : Option (Str × Str) :=
  if isPreCI "<head".toList s then
    (splitFirst ['>'] (s.drop 5)).map (fun pq => (s.take 5 ++ pq.1 ++ ['>'], pq.2))
  else none

/-- `ensureCspMeta`: leave the document alone if it mentions a CSP already,
else insert the meta tag after the first `<head...>`, or prepend it. -/
def ensureCspMeta (html : Str) : Str :=
  if hasSubCI "content-security-policy".toList html then html
  else
    match splitMatch mHeadTag html with
    | some (pre, m, post) => pre ++ m ++ ('\n' :: ' ' :: ' ' :: cspMeta) ++ post
    | none => cspMeta ++ '\n' :: html

/-- The id marker of the runtime bridge script. -/
def helperId : Str := "gea-runtime-helper".toList

/-- Default runtime model (`RUNTIME_MODEL` without environment override). -/
def RUNTIME_MODEL : Str := "llama-3.1-8b-instant".toList

/-- Text of the bridge template before the encoded model. -/
def helperPartA : String :=
  "\n<script id=\"gea-runtime-helper\">\n(function () \x7b\n  if (window._geaRuntimeInjected) return;\n  window._geaRuntimeInjected = true;\n  \n  const defaultModel = "

/-- Text of the bridge template between the encoded model and app id. -/
def helperPartB : String := ";\n  const appId = "

/-- Text of the bridge template after the encoded app id. -/
def helperPartC : String :=
  ";\n  \n  // AI Helper\n  async function callRuntimeLLM(prompt, options = \x7b\x7d) \x7b\n    if (!prompt || typeof prompt !== \"string\") \x7b\n      throw new Error(\"Prompt must be a non-empty string\");\n    \x7d\n    const model = typeof options.model === \x27string\x27 && options.model.trim() ? options.model.trim() : defaultModel;\n    const response = await fetch(\x27/api/runtime/llm\x27, \x7b\n      method: \x27POST\x27,\n      headers: \x7b \x27Content-Type\x27: \x27application/json\x27 \x7d,\n      body: JSON.stringify(\x7b prompt, model \x7d),\n      signal: options.signal\n    \x7d);\n    if (!response.ok) \x7b\n      const error = await response.json().catch(() => (\x7b\x7d));\n      throw new Error(error && error.error ? error.error : \x27Runtime LLM request failed\x27);\n    \x7d\n    const data = await response.json().catch(() => (\x7b\x7d));\n    return data && data.response ? data.response : \x27\x27;\n  \x7d\n  window.geaRuntimeLLM = callRuntimeLLM;\n\n  // Data Store Helper\n  window.geaRuntimeStore = \x7b\n    async get(key) \x7b\n      const response = await fetch(\x27/api/runtime/store/\x27 + encodeURIComponent(key), \x7b\n        headers: \x7b \x27X-App-ID\x27: appId \x7d\n      \x7d);\n      if (!response.ok) return null;\n      return await response.json().catch(() => null);\n    \x7d,\n    async set(key, value) \x7b\n      const response = await fetch(\x27/api/runtime/store/\x27 + encodeURIComponent(key), \x7b\n        method: \x27POST\x27,\n        headers: \x7b \x27Content-Type\x27: \x27application/json\x27, \x27X-App-ID\x27: appId \x7d,\n        body: JSON.stringify(value)\n      \x7d);\n      return response.ok;\n    \x7d\n  \x7d;\n\x7d)();\n</script>"

/-- The full bridge script for a given runtime model and app id (the JS
template literal with `JSON.stringify` substitutions; a falsy model falls
back to `RUNTIME_MODEL`). -/
def helperScriptFor (model appId : Str) : Str :=
  helperPartA.toList ++
    jsonEncodeStr (if model.isEmpty then RUNTIME_MODEL else model) ++
    helperPartB.toList ++ jsonEncodeStr appId ++ helperPartC.toList

/-- Matcher for `<script id="gea-runtime-helper">[\s\S]*?<\/script>` (`/i`):
returns the matched region and the remainder. -/
def mHelperTag (s : Str) : Option (Str × Str) :=
  if isPreCI "<script id=\"gea-runtime-helper\">".toList s then
    (splitFirstCI3 "</script>".toList (s.drop 32)).map
      (fun t => (s.take 32 ++ t.1 ++ t.2.1, t.2.2))
  else none

/-- `injectRuntimeHelpers`: replace an existing bridge in place, or insert
the bridge before `</body>`, else before `</html>`, else append it. -/
def injectRuntimeHelpers (html : Str) (model : Str) (appId : Str) : Str :=
  let helperScript := helperScriptFor model appId
  if hasSub helperId html then
    match splitMatch mHelperTag html with
    | some (pre, _, post) => pre ++ helperScript ++ post
    | none => html
  else
    match splitFirstCI "</body>".toList html with
    | some (pre, post) => pre ++ helperScript ++ "\n</body>".toList ++ post
    | none =>
      match splitFirstCI "</html>".toList html with
      | some (pre, post) => pre ++ helperScript ++ "\n</html>".toList ++ post
      | none => html ++ helperScript

/-! ## Response normalizer — `extractHtml` from the orchestrator -/

/-- JS `String.prototype.trim` (on the whitespace that occurs here). -/
def trimStr (s : Str) : Str :=
  ((s.dropWhile isWsJS).reverse.dropWhile isWsJS).reverse

/-- Matcher for the document start alternation `<(!DOCTYPE|html)` (`/i`). -/
def mDocStart (s : Str) : Option (Str × Str) :=
  if isPreCI "<!doctype".toList s then some (s.take 9, s.drop 9)
  else if isPreCI "<html".toList s then some (s.take 5, s.drop 5)
  else none

/-- Worker for `takeThruLastCI`: `acc` is the reversed prefix consumed so
far, `out` the best answer found so far. -/
def takeThruLastGo (pat : Str) : Str → Option Str → Str → Option Str
  | _, out, [] => out
  | acc, out, c :: rest =>
    if isPreCI pat (c :: rest) then
      takeThruLastGo pat (c :: acc) (some (acc.reverse ++ (c :: rest).take (lenTR pat))) rest
    else takeThruLastGo pat (c :: acc) out rest

/-- The prefix of `s` that ends with the last case-insensitive occurrence of
`pat`, if any (the span a greedy `[\s\S]*pat` match covers). -/
def takeThruLastCI (pat : Str) (s : Str) : Option Str :=
  takeThruLastGo pat [] none s

/-- The greedy regex `<(!DOCTYPE|html)[\s\S]*<\/html>` (`/i`): from the first
document-start token to the end of the last closing `</html>`. -/
def docMatch (raw : Str) : Option Str :=
  match splitMatch mDocStart raw with
  | none => none
  | some (_, m, post) => takeThruLastCI "</html>".toList (m ++ post)

/-- The lazy fenced-block regex used by `extractHtml`. -/
def fenceMatch (raw : Str) : Option Str :=
  match splitFirst [bq, bq, bq] raw with
  | none => none
  | some (_, afterOpen) =>
    let b1 := if isPre "html".toList afterOpen then afterOpen.drop 4 else afterOpen
    let b2 := b1.dropWhile isWsJS
    match splitFirst [bq, bq, bq] b2 with
    | none => none
    | some (inner, _) => some inner

/-- `extractHtml` from the orchestrator: pass documents through, else take
the first code fence, else the `<!DOCTYPE ... </html>` span, else trim. -/
def extractHtml (raw : Str) : Str :=
  if raw.isEmpty then []
  else if isPre "<!DOCTYPE".toList (trimStr raw) || isPre "<html".toList (trimStr raw) then
    trimStr raw
  else
    match fenceMatch raw with
    | some inner => trimStr inner
    | none =>
      match docMatch raw with
      | some m => m
      | none => trimStr raw

/-! ## Smoke harness — `runSmokeTests` (src/unnamed/part_001)

The browser itself is external: a run of the harness is abstracted as a
`BrowserRun` value describing what the Playwright session did (unavailable
dependency, fatal mid-run error, or a completed session with its observed
console errors and DOM).  Everything computed FROM those observations —
selector derivation, error categorization, filtering, and the pass/fail
decision — is embedded from the source. -/

/-- A derived DOM expectation. -/
structure Selector where
  selector : Str
  description : Str
  critical : Bool
deriving DecidableEq, Repr

/-- A structured error handed to the patcher. -/
structure StructErr where
  typ : Str
  message : Str
  severity : Str
  suggestedFix : Str
deriving DecidableEq, Repr

/-- `deriveSelectorsFromPlan`: plan model (only the fields the harness and
orchestrator consult; a missing/empty `title` is falsy in JS, hence `[]`). -/
structure PlanR where
  title : Str := []
  ui_components : List Str := []
  pagesCount : Nat := 0
  dataBindingsCount : Nat := 0
  recRuntime : Option Str := none
deriving DecidableEq, Repr

/-- Keep the first selector for each `selector` string (the `seen`-set
filter at the end of `deriveSelectorsFromPlan`). -/
def dedupBySelector : List Str → List Selector → List Selector
  | _, [] => []
  | seen, s :: rest =>
    if s.selector ∈ seen then dedupBySelector seen rest
    else s :: dedupBySelector (s.selector :: seen) rest

/-- The per-component selector mapping of `deriveSelectorsFromPlan` (each
`includes` test appends independently). -/
def componentSelectors (comp : Str) : List Selector :=
  let lc := lowerS comp
  (if hasSub "button".toList lc || hasSub "submit".toList lc then
    [⟨"button, [role=\"button\"]".toList, comp, true⟩] else []) ++
  (if hasSub "table".toList lc || hasSub "grid".toList lc then
    [⟨"table, [class*=\"table\"], [class*=\"grid\"], [role=\"grid\"]".toList, comp, true⟩] else []) ++
  (if hasSub "form".toList lc || hasSub "input".toList lc then
    [⟨"form, input, textarea".toList, comp, true⟩] else []) ++
  (if hasSub "chart".toList lc || hasSub "graph".toList lc || hasSub "visual".toList lc then
    [⟨"canvas, svg, [class*=\"chart\"], [class*=\"graph\"]".toList, comp, true⟩] else []) ++
  (if hasSub "modal".toList lc || hasSub "dialog".toList lc || hasSub "popup".toList lc then
    [⟨"[class*=\"modal\"], dialog, [role=\"dialog\"]".toList, comp, false⟩] else []) ++
  (if hasSub "search".toList lc then
    [⟨"input[type=\"search\"], [class*=\"search\"], input[placeholder*=\"search\" i]".toList, comp, true⟩] else []) ++
  (if hasSub "dropdown".toList lc || hasSub "select".toList lc then
    [⟨"select, [class*=\"dropdown\"], [role=\"listbox\"]".toList, comp, true⟩] else []) ++
  (if hasSub "tab".toList lc then
    [⟨"[role=\"tablist\"], [class*=\"tab\"], .tabs".toList, comp, false⟩] else []) ++
  (if hasSub "card".toList lc then
    [⟨"[class*=\"card\"], article".toList, comp, false⟩] else []) ++
  (if hasSub "list".toList lc then
    [⟨"ul, ol, [class*=\"list\"]".toList, comp, false⟩] else [])

/-- `deriveSelectorsFromPlan` from the smoke-test module. -/
def deriveSelectorsFromPlan (plan : PlanR) : List Selector :=
  let base :=
    (if plan.title.isEmpty then [] else
      [⟨"h1, [class*=\"title\"], [class*=\"header\"], header h1, header h2".toList,
        "Main title/header".toList, true⟩]) ++
    (plan.ui_components.map componentSelectors).flatten ++
    (if plan.pagesCount > 1 then
      [⟨"nav, [class*=\"nav\"], [role=\"navigation\"], [class*=\"menu\"]".toList,
        "Navigation for multi-page app".toList, true⟩] else []) ++
    (if plan.dataBindingsCount > 0 then
      [⟨"[class*=\"data\"], [class*=\"content\"], main, .container, #app".toList,
        "Data container".toList, false⟩] else [])
  dedupBySelector [] base

/-- `categorizeError`: critical console-error heuristics. -/
def categorizeError (e : Str) : Str :=
  let pats := ["undefined is not a function", "is not defined", "cannot read propert",
    "null", "syntaxerror", "typeerror", "referenceerror"]
  if pats.any (fun p => hasSubCI p.toList e) then "critical".toList else "medium".toList

/-- `suggestFix`: capture the JS `(\w+) is not defined` word, leftmost. -/
def notDefinedWord : Str → Option Str
  | [] => none
  | c :: rest =>
    let w := (c :: rest).takeWhile isWordChar
    if !w.isEmpty && isPreCI " is not defined".toList ((c :: rest).dropWhile isWordChar) then
      some w
    else notDefinedWord rest

/-- `suggestFix` from the smoke-test module. -/
def suggestFix (e : Str) : Str :=
  let lower := lowerS e
  if hasSub "is not defined".toList lower then
    match notDefinedWord e with
    | some w => "Define or import \x27".toList ++ w ++ "\x27 before using it".toList
    | none => suggestFixRest e
  else suggestFixRest e
where
  /-- The remaining heuristics of `suggestFix`. -/
  suggestFixRest (e : Str) : Str :=
    let lower := lowerS e
    if hasSub "cannot read propert".toList lower && hasSub "null".toList lower then
      "An element was not found. Check that the selector exists before using it.".toList
    else if hasSub "failed to fetch".toList lower then
      "Use window.geaRuntimeStore or window.geaRuntimeLLM instead of fetch()".toList
    else if hasSub "cors".toList lower then
      "CORS error - use window.geaRuntimeStore for data operations instead of direct fetch".toList
    else "Review the error and fix the underlying JavaScript issue".toList

/-- The harmless console-error patterns filtered before the decision. -/
def harmlessPatterns : List String :=
  ["favicon.ico", "chrome-extension:",
   "failed to load resource: the server responded with a status of 404",
   "socket.io", "resizeobserver loop", "non-error promise rejection"]

/-- Is a console error matched by a harmless pattern? -/
def isHarmless (e : Str) : Bool := harmlessPatterns.any (fun p => hasSubCI p.toList e)

/-- The `results` record of `runSmokeTests` (observable fields only). -/
structure SmokeResults where
  consoleErrors : List Str := []
  missingSelectors : List Selector := []
  loadSuccess : Bool := false
  criticalFailures : List Str := []
  skipped : Bool := false
  fatalError : Option Str := none
deriving DecidableEq, Repr

/-- The return value of `runSmokeTests`. -/
structure SmokeOutcome where
  passed : Bool
  results : SmokeResults
  structuredErrors : List StructErr
deriving DecidableEq, Repr

/-- What a completed browser session observed: console/page errors in
capture order, and which selectors the loaded DOM satisfies.  `loadSuccess`
mirrors the flag set right after `page.setContent` (true on this path). -/
structure SmokeObs where
  consoleErrors : List Str
  dom : Str → Bool
  loadSuccess : Bool

/-- The selectors derived from an optional plan (`null` derives none). -/
def derivedOf : Option PlanR → List Selector
  | none => []
  | some p => deriveSelectorsFromPlan p

/-- One run of the external browser harness. -/
inductive BrowserRun where
  | unavailable
  | fatal (sofar : SmokeResults) (collected : List StructErr) (msg : Str)
  | completed (obs : SmokeObs)

/-- `runSmokeTests`: the pass/fail decision over a browser run, embedding
the source's selector checks, filters and final conjunction. -/
def runSmokeTests (run : BrowserRun) (plan : Option PlanR) : SmokeOutcome :=
  match run with
  | .unavailable =>
    ⟨true, {loadSuccess := true, skipped := true}, []⟩
  | .fatal sofar collected msg =>
    ⟨false, {sofar with fatalError := some msg},
      collected ++ [⟨"FATAL_ERROR".toList, msg, "critical".toList,
        "The page failed to load or execute. Check HTML syntax and script errors.".toList⟩]⟩
  | .completed obs =>
    let missing := (derivedOf plan).filter (fun sel => !obs.dom sel.selector)
    let criticalFailures := (missing.filter (·.critical)).map
      (fun sel => "Missing critical element: ".toList ++ sel.selector)
    let structuredConsole := obs.consoleErrors.map
      (fun e => (⟨"CONSOLE_ERROR".toList, e, categorizeError e, suggestFix e⟩ : StructErr))
    -- a MISSING_ELEMENT object has no `message` field; rendering it prints
    -- the JS string "undefined"
    let structuredMissing := missing.map
      (fun sel => (⟨"MISSING_ELEMENT".toList, "undefined".toList,
        (if sel.critical then "critical" else "medium").toList,
        "Add element matching: ".toList ++ sel.selector ++
          (if sel.description.isEmpty then [] else
            " (".toList ++ sel.description ++ ")".toList)⟩ : StructErr))
    let criticalErrors := obs.consoleErrors.filter (fun e => !isHarmless e)
    let hasCriticalErrors := !criticalErrors.isEmpty
    let hasCriticalMissingElements := missing.any (·.critical)
    let hasTooManyMissing := missing.length > 3
    let passed := obs.loadSuccess && !hasCriticalErrors && !hasCriticalMissingElements &&
      !hasTooManyMissing && criticalFailures.isEmpty
    ⟨passed,
     {consoleErrors := obs.consoleErrors, missingSelectors := missing,
      loadSuccess := obs.loadSuccess, criticalFailures := criticalFailures},
     structuredConsole ++ structuredMissing⟩

/-! ## DS-Star orchestrator — `runDSStarPipeline` (src/unnamed/part_002)

The loop body is a state-transition function.  Outcomes of the external
calls (planner, critics, coder LLM, browser harness) are supplied by a
per-iteration environment; every run of the real pipeline corresponds to
one such environment.  The security gate and the safety transformer are the
real embedded functions above. -/

/-- A critic issue `{severity, area, message}`. -/
structure Issue where
  severity : Str
  area : Str
  message : Str
deriving DecidableEq, Repr

/-- Plan-critic verdict. -/
structure CritiqueR where
  approved : Bool
  issues : List Issue
deriving DecidableEq, Repr

/-- Code-critic verdict. -/
structure CodeCritR where
  approved : Bool
  issues : List Issue
  missing : List Str
deriving DecidableEq, Repr

/-- Environment of one iteration: what the external calls return. -/
structure IterEnv where
  planResult : Except Str PlanR
  planCritique : CritiqueR
  llmReply : Except Str Str
  codeCritique : CodeCritR
  smoke : BrowserRun

/-- An entry of `failureReports` (optional fields mirror JS objects that
may lack the field altogether). -/
structure Report where
  iter : Nat
  phase : String
  error : Option Str := none
  issues : Option (List Issue) := none
  violations : Option (List Violation) := none
  consoleErrors : List Str := []
  missingSelectors : List Str := []
  structuredErrors : List StructErr := []
  fatalError : Option Str := none
deriving DecidableEq

/-- An entry of the `history` array (only the fields the loop reads back). -/
structure HistEntry where
  iter : Nat
  phase : String
  smokeTest : Option SmokeOutcome := none
deriving DecidableEq

/-- A progress event (`emit`). -/
inductive Event where
  | start (runId : String) (maxIters : Nat)
  | iterE (iteration maxIters : Nat) (phase status : String)
  | succ (iteration : Nat) (fallback : Bool)
deriving DecidableEq, Repr

/-- An external call made by the orchestrator, with the rendered text the
call carries. -/
inductive ExtCall where
  | planReq (iter : Nat) (extra : Str)
  | planCrit (iter : Nat)
  | llmPatch (iter : Nat) (fixLines : Str) (attempts : List Str) (testErrors : List Str)
  | llmFresh (iter : Nat) (extra : Str)
  | codeCrit (iter : Nat)
  | smokeRun (iter : Nat)
deriving DecidableEq

/-- A file path in the run directory (iteration files live in `iter_<N>/`,
the other three at the root; distinct constructors are distinct paths). -/
inductive FPath where
  | iterFile (iter : Nat) (name : String)
  | finalPlanF
  | finalHtmlF
  | summaryF
deriving DecidableEq, Repr

/-- A filesystem write issued by the run. -/
structure FileWrite where
  path : FPath
  content : Str
deriving DecidableEq

/-- The orchestrator's per-run state, with the traces a run accumulates. -/
structure PState where
  securityErrors : List String := []
  planCritiqueIssues : List Str := []
  codeCritiqueIssues : List Str := []
  currentPlan : Option PlanR := none
  currentHtml : Option Str := none
  planApprovedAt : Option Nat := none
  codeApprovedAt : Option Nat := none
  testsPassedAt : Option Nat := none
  success : Bool := false
  runtimeModel : Str := "llama-3.1-8b-instant".toList
  lastFailureReason : Str := []
  failureReports : List Report := []
  history : List HistEntry := []
  events : List Event := []
  calls : List ExtCall := []
  writes : List FileWrite := []

/-- What one loop turn concluded (the labels of the `continue`/`break`
paths of the source). -/
inductive IterOutcome where
  | planError
  | planRejected
  | codegenError
  | secFailed (names : List String)
  | smokePassed
  | fallbackSuccess
  | smokeFailed
deriving DecidableEq, Repr

/-- Append a value unless an equal one is present (the `includes`-guarded
`push` used for all three failure-memory lists). -/
def pushNew [DecidableEq α] (xs : List α) (m : α) : List α :=
  if m ∈ xs then xs else xs ++ [m]

/-- `forEach`-append a batch through `pushNew`. -/
def pushNewAll [DecidableEq α] (xs : List α) (ys : List α) : List α :=
  ys.foldl pushNew xs

/-- JS `toUpperCase`. -/
def upperS (s : Str) : Str := s.map Char.toUpper

/-- Decimal rendering of a number. -/
def natToStr (n : Nat) : Str := (toString n).toList

/-- JS truthiness of the `currentHtml` variable (null or empty are falsy). -/
def htmlTruthy : Option Str → Bool
  | some h => !h.isEmpty
  | none => false

/-- JS `Array.prototype.join(sep)`. -/
def joinSep (sep : Str) : List Str → Str
  | [] => []
  | [x] => x
  | x :: y :: t => x ++ sep ++ joinSep sep (y :: t)

/-- The `extraDirections` string rendered before every Planner call:
accumulated plan issues, then the security errors as bare `❌ <name>` lines. -/
def plannerExtraDirections (s : PState) : Str :=
  (if s.planCritiqueIssues.isEmpty then [] else
    "\n\nPREVIOUS PLAN ISSUES TO FIX:\n".toList ++
      joinSep "\n".toList (s.planCritiqueIssues.map (fun i => "- ".toList ++ i))) ++
  "\n\nSECURITY RESTRICTIONS - DO NOT VIOLATE:\n".toList ++
  joinSep "\n".toList (s.securityErrors.map (fun e => "❌ ".toList ++ e.toList))

/-- The legacy-error normalization applied before the fix-hint lookup. -/
def normalizeSecKey (e : String) : String :=
  if hasSub "fetch".toList e.toList then "fetch()"
  else if hasSub "iframe".toList e.toList then "<iframe>"
  else if hasSub "axios".toList e.toList then "axios"
  else if hasSub "XMLHttpRequest".toList e.toList then "XMLHttpRequest"
  else if hasSub "embed".toList e.toList then "<embed>"
  else if hasSub "object".toList e.toList then "<object>"
  else e

/-- Look a canonical name up in `BANNED_PATTERNS` (tags are not in it). -/
def findPatternDef (key : String) : Option BannedPattern :=
  BANNED_PATTERNS.find? (fun p => p.name == key)

/-- One security line of the Patch fix instructions: the fix-hint rendering
`❌ <key> IS BANNED → <fix>`, or the fallback line. -/
def renderSecFixLine (e : String) : Str :=
  let key := normalizeSecKey e
  match findPatternDef key with
  | some p => "❌ ".toList ++ key.toList ++ " IS BANNED → ".toList ++ p.fix.toList
  | none => "❌ CORRECT THIS SECURITY ERROR: ".toList ++ e.toList

/-- JS `Array.prototype.slice(-n)`. -/
def lastN (n : Nat) (xs : List α) : List α := xs.drop (xs.length - n)

/-- One rendered structured-error bullet of the Patch fix instructions. -/
def structErrLines (err : StructErr) : List Str :=
  ("• [".toList ++ upperS err.severity ++ "] ".toList ++ err.typ ++ ": ".toList ++ err.message) ::
    (if err.suggestedFix.isEmpty then [] else
      ["   → FIX: ".toList ++ err.suggestedFix])

/-- The `fixLines` block built for a Patch call (joined with newlines). -/
def patchFixLines (s : PState) (lastSmoke : Option SmokeOutcome) : Str :=
  let l1 : List Str := ["FIX THESE ISSUES:".toList]
  let l2 := (lastN 5 s.codeCritiqueIssues).map (fun i => "• ".toList ++ i)
  let l3 := match lastSmoke with
    | some sm =>
      ([] : Str) :: "SPECIFIC ERRORS FROM TESTING:".toList ::
        ((sm.structuredErrors.take 5).map structErrLines).flatten
    | none => []
  let l4 : List Str := [[], "SECURITY RULES (MUST FOLLOW):".toList]
  let l5 := s.securityErrors.map renderSecFixLine
  joinSep "\n".toList (l1 ++ l2 ++ l3 ++ l4 ++ l5)

/-- One line of the chronological attempt history in the Patch prompt. -/
def attemptLine (r : Report) : Str :=
  "Iteration ".toList ++ natToStr r.iter ++ ": Phase ".toList ++ r.phase.toList ++
    " failed with ".toList ++
    (match r.error with
     | some e => if e.isEmpty then attemptFallback r else e
     | none => attemptFallback r)
where
  /-- The `r.issues ? ... : 'unknown error'` fallback. -/
  attemptFallback (r : Report) : Str :=
    match r.issues with
    | some is => natToStr is.length ++ " issues".toList
    | none => "unknown error".toList

/-- The worked example appended when a network-call ban was seen. -/
def correctWayBlock : String :=
  "\n✅ CORRECT WAY TO MAKE LLM CALLS:\n\x60\x60\x60javascript\n// Use window.geaRuntimeLLM() instead of fetch/axios\nconst response = await window.geaRuntimeLLM(\x7b\n  prompt: \"Your prompt here\",\n  model: \"llama-3.3-70b-versatile\" // or your chosen model\n\x7d);\nconst result = response.text; // Extract the result\n\x60\x60\x60\n"

/-- One security line of the fresh-Coder `extra` block (the fallback here
is the bare `❌ <e>` line, unlike the Patch renderer). -/
def renderSecExtraLine (e : String) : Str :=
  let key := normalizeSecKey e
  match findPatternDef key with
  | some p => "❌ ".toList ++ key.toList ++ " IS BANNED → ".toList ++ p.fix.toList ++ "\n".toList
  | none => "❌ ".toList ++ e.toList ++ "\n".toList

/-- The `extra` security block rendered into a fresh Coder prompt. -/
def coderSecurityExtra (secErrors : List String) : Str :=
  if secErrors.isEmpty then []
  else
    "\n⚠️ SECURITY RESTRICTIONS - DO NOT VIOLATE:\n".toList ++
    (secErrors.map renderSecExtraLine).flatten ++
    (if secErrors.any (fun e => hasSub "fetch".toList e.toList ||
        hasSub "axios".toList e.toList || hasSub "XMLHttpRequest".toList e.toList) then
      correctWayBlock.toList
     else []) ++
    "\n".toList

/-- The files `saveIterationArtifacts` writes for one iteration (a file is
written only when its artifact is truthy; JSON pretty-printing is not
modelled, those contents are empty here). -/
def mkIterWrites (iter : Nat) (prompt : Str) (hasPlan hasPlanCrit : Bool)
    (html : Option Str) (hasCodeCrit hasSmoke : Bool) : List FileWrite :=
  (if prompt.isEmpty then [] else [⟨.iterFile iter "prompt.txt", prompt⟩]) ++
  (if hasPlan then [⟨.iterFile iter "plan.json", []⟩] else []) ++
  (if hasPlanCrit then [⟨.iterFile iter "plan_critique.json", []⟩] else []) ++
  (match html with
   | some h => if h.isEmpty then [] else [⟨.iterFile iter "html.html", h⟩]
   | none => []) ++
  (if hasCodeCrit then [⟨.iterFile iter "code_critique.json", []⟩] else []) ++
  (if hasSmoke then [⟨.iterFile iter "smoke_test.json", []⟩] else []) ++
  [⟨.iterFile iter "meta.json", []⟩]

/-- `Math.ceil(maxIters * 0.75)` (0.75 is exact in binary). -/
def fallbackThreshold (maxIters : Nat) : Nat := (3 * maxIters + 3) / 4

/-- Append a progress event. -/
def addEvent (ev : Event) (s : PState) : PState := {s with events := s.events ++ [ev]}

/-- Record an external call. -/
def addCall (c : ExtCall) (s : PState) : PState := {s with calls := s.calls ++ [c]}

/-- Issue filesystem writes. -/
def addWrites (ws : List FileWrite) (s : PState) : PState := {s with writes := s.writes ++ ws}

/-- Append a failure report. -/
def addReport (r : Report) (s : PState) : PState :=
  {s with failureReports := s.failureReports ++ [r]}

/-- Append a history entry. -/
def addHist (h : HistEntry) (s : PState) : PState := {s with history := s.history ++ [h]}

/-- Record the latest failure reason. -/
def setLastFailure (x : Str) (s : PState) : PState := {s with lastFailureReason := x}

/-- Add deduplicated canonical names to the security failure memory. -/
def pushSecErrors (names : List String) (s : PState) : PState :=
  {s with securityErrors := pushNewAll s.securityErrors names}

/-- Add deduplicated plan-critique issues. -/
def pushPlanIssues (msgs : List Str) (s : PState) : PState :=
  {s with planCritiqueIssues := pushNewAll s.planCritiqueIssues msgs}

/-- Add deduplicated code-critique issues. -/
def pushCodeIssues (msgs : List Str) (s : PState) : PState :=
  {s with codeCritiqueIssues := pushNewAll s.codeCritiqueIssues msgs}

/-- The reactive-replanning invalidation after a security hard-fail. -/
def clearForReplan (s : PState) : PState :=
  {s with planApprovedAt := none, currentPlan := none, currentHtml := none}

/-- Record plan approval. -/
def approvePlanAt (i : Nat) (s : PState) : PState := {s with planApprovedAt := some i}

/-- Store the generated plan and the possibly-updated runtime model. -/
def setPlanAndModel (p : PlanR) (rtm : Str) (s : PState) : PState :=
  {s with currentPlan := some p, runtimeModel := rtm}

/-- Store the transformed HTML. -/
def setHtml (h : Str) (s : PState) : PState := {s with currentHtml := some h}

/-- Record code-critic approval. -/
def approveCodeAt (i : Nat) (s : PState) : PState := {s with codeApprovedAt := some i}

/-- Record a passing smoke run, declaring success. -/
def passTestsAt (i : Nat) (s : PState) : PState :=
  {s with testsPassedAt := some i, success := true}

/-- Declare (fallback) success. -/
def markSuccess (s : PState) : PState := {s with success := true}

/-- The failure report of a failing smoke run. -/
def smokeReport (iter : Nat) (sm : SmokeOutcome) : Report :=
  {iter := iter, phase := "smoke_tests",
   error := some ("SMOKE_TESTS: ".toList ++ natToStr sm.results.consoleErrors.length ++
     " errors, ".toList ++ natToStr sm.results.missingSelectors.length ++
     " missing elements.".toList ++
     (match sm.results.fatalError with
      | some f => " FATAL: ".toList ++ f
      | none => [])),
   consoleErrors := sm.results.consoleErrors,
   missingSelectors := sm.results.missingSelectors.map (·.selector),
   structuredErrors := sm.structuredErrors,
   fatalError := sm.results.fatalError}

/-- The `hasHighIssues` test of the fallback block: a report of the current
iteration with a high-severity issue or with the literal phase `security`
(reports actually use `security_scan`, so that disjunct never fires). -/
def hasHighIssues (reports : List Report) (iter : Nat) : Bool :=
  reports.any (fun r =>
    r.iter == iter &&
      ((r.issues.getD []).any (fun i => i.severity == "high".toList) ||
        r.phase == "security"))

/-- The codegen-failure wrap-up of an iteration. -/
def codegenErrorStep (maxIters iter : Nat) (prompt : Str) (aP aPC : Bool)
    (msg : Str) (s : PState) : PState :=
  s |> setLastFailure ("HTML_GENERATION: ".toList ++ msg)
    |> addReport {iter := iter, phase := "codegen", error := some msg}
    |> addEvent (.iterE iter maxIters "code" "failed")
    |> addHist ⟨iter, "codegen", none⟩
    |> addWrites (mkIterWrites iter prompt aP aPC none false false)

/-- The security hard-fail wrap-up: failure memory, reactive plan
invalidation, report, artifacts. -/
def secFailStep (maxIters iter : Nat) (prompt : Str) (aP aPC : Bool)
    (html : Str) (viols : List Violation) (s : PState) : PState :=
  let rep : Report := {iter := iter, phase := "security_scan", violations := some viols}
  s |> pushSecErrors (viols.map (·.pattern))
    |> clearForReplan
    |> setLastFailure "SECURITY_SCAN: failed".toList
    |> addReport rep
    |> addEvent (.iterE iter maxIters "security_scan" "failed")
    |> addHist ⟨iter, "security_scan", none⟩
    |> addWrites (mkIterWrites iter prompt aP aPC (some html) false false)

/-- Phase 4b: the advisory code critique. -/
def codeCritiqueStep (e : IterEnv) (maxIters iter : Nat) (s4 : PState) : PState :=
  let s5 := s4 |> addEvent (.iterE iter maxIters "code_critique" "working")
               |> addCall (.codeCrit iter)
  if e.codeCritique.approved then
    s5 |> approveCodeAt iter |> addEvent (.iterE iter maxIters "code" "approved")
  else
    s5 |> pushCodeIssues (e.codeCritique.issues.map (fun i =>
            "[".toList ++ i.severity ++ "] ".toList ++ i.message))
       |> pushCodeIssues (e.codeCritique.missing.map (fun mi => "Missing: ".toList ++ mi))
       |> addEvent (.iterE iter maxIters "code" "advisory_issues")

/-- Phase 5 bookkeeping given the smoke outcome: either success, or a
smoke failure report. -/
def smokeStep (maxIters iter : Nat) (sm : SmokeOutcome) (s6 : PState) : PState :=
  let s7 := s6 |> addEvent (.iterE iter maxIters "tests" "working")
               |> addCall (.smokeRun iter)
  if sm.passed || sm.results.skipped then
    s7 |> passTestsAt iter |> addEvent (.iterE iter maxIters "tests" "passed")
  else
    s7 |> setLastFailure ((smokeReport iter sm).error.getD [])
       |> addReport (smokeReport iter sm)
       |> addHist ⟨iter, "smoke_tests", some sm⟩
       |> addEvent (.iterE iter maxIters "tests" "failed")

/-- The iteration seal: artifacts and the history record. -/
def sealStep (iter : Nat) (prompt : Str) (aP aPC : Bool) (html : Str) (s8 : PState) : PState :=
  s8 |> addWrites (mkIterWrites iter prompt aP aPC (some html) true true)
     |> addHist ⟨iter, "seal", none⟩

/-- The end-of-iteration decision: report success, declare a fallback
success past the 75%-of-budget threshold when the report and plan
conditions allow it, or record a plain smoke failure. -/
def fallbackDecision (maxIters iter : Nat) (pca : Bool) (s9 : PState) :
    PState × IterOutcome :=
  if s9.success then
    (addEvent (.succ iter false) s9, .smokePassed)
  else if decide (iter ≥ fallbackThreshold maxIters) then
    if !hasHighIssues s9.failureReports iter &&
        (s9.planApprovedAt.isSome || pca) then
      (s9 |> markSuccess |> addEvent (.succ iter true), .fallbackSuccess)
    else (s9, .smokeFailed)
  else (s9, .smokeFailed)

/-- The remainder of an iteration from the code-generation phase on, given
the plan-phase results.  `aP`/`aPC` say whether this iteration produced
those artifacts; `pca` is this iteration's plan-critic verdict if it ran. -/
def runCodePhases (e : IterEnv) (maxIters : Nat) (prompt : Str) (runId : Str)
    (iter : Nat) (aP aPC : Bool) (pca : Bool) (s1 : PState) : PState × IterOutcome :=
  let s2 := addEvent (.iterE iter maxIters "code" "working") s1
  -- patch vs fresh generation
  let isPatch := htmlTruthy s2.currentHtml && decide (iter > 1) &&
    (!s2.codeCritiqueIssues.isEmpty || !s2.securityErrors.isEmpty)
  let lastSmoke : Option SmokeOutcome := (s2.history.get? (iter - 2)).bind (·.smokeTest)
  let s3 : PState :=
    if isPatch then
      addCall (.llmPatch iter (patchFixLines s2 lastSmoke)
        (s2.failureReports.map attemptLine)
        (match lastSmoke with
         | some sm => sm.results.consoleErrors
         | none => [])) s2
    else
      addCall (.llmFresh iter (coderSecurityExtra s2.securityErrors)) s2
  match e.llmReply with
  | .error msg => (codegenErrorStep maxIters iter prompt aP aPC msg s3, .codegenError)
  | .ok raw =>
    let html := injectRuntimeHelpers (ensureCspMeta (ensureCspMeta (extractHtml raw)))
      s2.runtimeModel runId
    let s4 := setHtml html s3
    -- Phase 4a: the deterministic gate
    let scan := runSecurityGate html
    if !scan.passed then
      (secFailStep maxIters iter prompt aP aPC html scan.securityViolations s4,
       .secFailed (scan.securityViolations.map (·.pattern)))
    else
      let s6 := codeCritiqueStep e maxIters iter s4
      let sm := runSmokeTests e.smoke s6.currentPlan
      fallbackDecision maxIters iter pca
        (sealStep iter prompt aP aPC html (smokeStep maxIters iter sm s6))

/-- The plan-generation-failure wrap-up. -/
def planErrorStep (maxIters iter : Nat) (prompt : Str) (msg : Str) (s : PState) : PState :=
  s |> setLastFailure ("PLAN_GENERATION: ".toList ++ msg)
    |> addReport {iter := iter, phase := "plan", error := some msg}
    |> addEvent (.iterE iter maxIters "plan" "failed")
    |> addHist ⟨iter, "plan", none⟩
    |> addWrites (mkIterWrites iter prompt false false none false false)

/-- The plan-rejection wrap-up: plan-critique failure memory, report,
artifacts. -/
def planRejectStep (e : IterEnv) (maxIters iter : Nat) (prompt : Str) (s : PState) : PState :=
  let msgs := e.planCritique.issues.map (fun i =>
    "[".toList ++ i.severity ++ "] ".toList ++ i.area ++ ": ".toList ++ i.message)
  let reason := "PLAN_CRITIQUE: ".toList ++ natToStr e.planCritique.issues.length ++
    " issues. ".toList ++
    joinSep ", ".toList ((e.planCritique.issues.take 2).map (·.message))
  let rep : Report :=
    {iter := iter, phase := "plan_critique", issues := some e.planCritique.issues,
     error := some reason}
  s |> pushPlanIssues msgs
    |> setLastFailure reason
    |> addReport rep
    |> addEvent (.iterE iter maxIters "plan" "rejected")
    |> addHist ⟨iter, "plan_critique", none⟩
    |> addWrites (mkIterWrites iter prompt true true none false false)

/-- One turn of the orchestrator loop (the body of the `for` in
`runDSStarPipeline`). -/
def runIteration (e : IterEnv) (maxIters : Nat) (prompt : Str) (runId : Str)
    (iter : Nat) (s0 : PState) : PState × IterOutcome :=
  let s := addEvent (.iterE iter maxIters "start" "") s0
  match s.planApprovedAt with
  | some _ =>
    -- plan already approved: go straight to code generation
    runCodePhases e maxIters prompt runId iter false false false s
  | none =>
    -- Phase 1: plan
    let s1 := s |> addEvent (.iterE iter maxIters "plan" "working")
                |> addCall (.planReq iter (plannerExtraDirections s))
    match e.planResult with
    | .error msg => (planErrorStep maxIters iter prompt msg s1, .planError)
    | .ok plan =>
      let rtm := match plan.recRuntime with
        | some r => if r.isEmpty then s1.runtimeModel else r
        | none => s1.runtimeModel
      let s2 := setPlanAndModel plan rtm s1
      -- Phase 2: plan critique
      let s3 := s2 |> addEvent (.iterE iter maxIters "plan_critique" "working")
                   |> addCall (.planCrit iter)
      if e.planCritique.approved then
        let s4 := s3 |> approvePlanAt iter
                     |> addEvent (.iterE iter maxIters "plan" "approved")
        runCodePhases e maxIters prompt runId iter true true true s4
      else
        (planRejectStep e maxIters iter prompt s3, .planRejected)


/-- The `for` loop: run iterations `i, i+1, ...` while fuel lasts, breaking
as soon as `success` is set. -/
def runLoop (env : Nat → IterEnv) (maxIters : Nat) (prompt : Str) (runId : Str) :
    Nat → Nat → PState → PState
  | 0, _, s => s
  | f + 1, i, s =>
    let s' := (runIteration (env i) maxIters prompt runId i s).1
    if s'.success then s' else runLoop env maxIters prompt runId f (i + 1) s'

/-- The writes after the loop: `saveFinalOutputs`, `saveSummary`, then the
guarded direct `final.html` write. -/
def pipelineEpilogue (s : PState) : PState :=
  let w1 :=
    (match s.currentPlan with
     | some _ => [(⟨.finalPlanF, []⟩ : FileWrite)]
     | none => []) ++
    (match s.currentHtml with
     | some h => if h.isEmpty then [] else [(⟨.finalHtmlF, h⟩ : FileWrite)]
     | none => [])
  let w2 := [(⟨.summaryF, []⟩ : FileWrite)]
  let w3 := match s.currentHtml with
    | some h => if h.isEmpty then [] else [(⟨.finalHtmlF, h⟩ : FileWrite)]
    | none => []
  {s with writes := s.writes ++ w1 ++ w2 ++ w3}

/-- `runDSStarPipeline`: the whole bounded loop plus its epilogue. -/
def runDSStarPipeline (env : Nat → IterEnv) (maxIters : Nat) (prompt : Str)
    (runId : Str) : PState :=
  let s0 : PState := {events := [.start (String.mk runId) maxIters]}
  pipelineEpilogue (runLoop env maxIters prompt runId maxIters 1 s0)

/-! ## Helper lemmas -/

/-- `lenTR` agrees with `List.length`. -/
theorem lenTR_eq (s : List Char) : lenTR s = s.length := by
  have h : ∀ (l : List Char) (n : Nat),
      l.foldl (fun m _ => m + 1) n = n + l.length := by
    intro l
    induction l with
    | nil => intro n; simp
    | cons c t ih => intro n; simp [List.foldl, ih]; omega
  simp [lenTR, h]

/-- `listEqB` decides equality. -/
theorem listEqB_iff : ∀ x y : Str, listEqB x y = true ↔ x = y := by
  intro x
  induction x with
  | nil => intro y; cases y <;> simp [listEqB]
  | cons a as ih =>
    intro y
    cases y with
    | nil => simp [listEqB]
    | cons b bs => simp [listEqB, ih]

/-- `isPre` decides list prefixing. -/
theorem isPre_iff (p s : Str) : isPre p s = true ↔ p <+: s := by
  induction p generalizing s with
  | nil => simp [isPre]
  | cons a ps ih =>
    cases s with
    | nil => simp [isPre]
    | cons c cs =>
      show (a == c && isPre ps cs) = true ↔ _
      rw [Bool.and_eq_true, beq_iff_eq, ih, List.cons_prefix_cons]

/-- `hasSub` decides the substring relation. -/
theorem hasSub_iff (p s : Str) : hasSub p s = true ↔ p <:+: s := by
  induction s with
  | nil =>
    show isPre p [] = true ↔ _
    rw [isPre_iff]
    simp [List.prefix_nil, List.infix_nil]
  | cons c cs ih =>
    show (isPre p (c :: cs) || hasSub p cs) = true ↔ _
    rw [Bool.or_eq_true, isPre_iff, ih, List.infix_cons_iff]

/-- `lowerS` distributes over append. -/
theorem lowerS_append (a b : Str) : lowerS (a ++ b) = lowerS a ++ lowerS b :=
  List.map_append _ _ _

/-- A case-insensitive substring of a middle part is one of the whole. -/
theorem hasSubCI_of_mid (key a mid b : Str) (h : hasSub key (lowerS mid) = true) :
    hasSubCI key (a ++ mid ++ b) = true := by
  rw [hasSubCI, hasSub_iff]
  rw [hasSub_iff] at h
  refine h.trans ⟨lowerS a, lowerS b, ?_⟩
  simp [lowerS, List.map_append, List.append_assoc]

/-- The inserted meta tag mentions the CSP marker the guard looks for. -/
theorem cspMeta_hasKey : hasSub "content-security-policy".toList (lowerS cspMeta) = true := by
  decide

/-- When the guard is false, `ensureCspMeta` embeds the meta tag. -/
theorem ensureCspMeta_contains (html : Str)
    (h : hasSubCI "content-security-policy".toList html = false) :
    ∃ a b, ensureCspMeta html = a ++ cspMeta ++ b := by
  have hu : ensureCspMeta html =
      match splitMatch mHeadTag html with
      | some (pre, m, post) => pre ++ m ++ ('\n' :: ' ' :: ' ' :: cspMeta) ++ post
      | none => cspMeta ++ '\n' :: html := by
    simp only [ensureCspMeta]
    rw [h]
    simp
  rw [hu]
  cases splitMatch mHeadTag html with
  | none => exact ⟨[], '\n' :: html, by simp⟩
  | some pmq =>
    obtain ⟨pre, m, post⟩ := pmq
    refine ⟨pre ++ m ++ ['\n', ' ', ' '], post, ?_⟩
    simp [List.append_assoc]

/-- `ensureCspMeta` is idempotent: a second pass sees the marker of the
meta tag the first pass inserted (or already present) and returns its input
unchanged. -/
theorem ensureCspMeta_idem (html : Str) :
    ensureCspMeta (ensureCspMeta html) = ensureCspMeta html := by
  by_cases h : hasSubCI "content-security-policy".toList html = true
  · have h1 : ensureCspMeta html = html := by
      simp only [ensureCspMeta]
      rw [h]
      simp
    rw [h1, h1]
  · have h' : hasSubCI "content-security-policy".toList html = false := by
      simpa using h
    obtain ⟨a, b, hab⟩ := ensureCspMeta_contains html h'
    have hk : hasSubCI "content-security-policy".toList (ensureCspMeta html) = true := by
      rw [hab]; exact hasSubCI_of_mid _ a cspMeta b cspMeta_hasKey
    conv_lhs => rw [ensureCspMeta]
    rw [hk]
    simp

/-- The well-formed document shell used for the transformer instances. -/
def shellDoc : Str := "<html><body></body></html>".toList

/-- The default runtime model string, as the orchestrator passes it. -/
def defaultModelStr : Str := "llama-3.1-8b-instant".toList

/-- The default app id of `injectRuntimeHelpers`. -/
def defaultAppId : Str := "default".toList

/-- The shell after one bridge injection. -/
def injected1 : Str := injectRuntimeHelpers shellDoc defaultModelStr defaultAppId

/-- C7: counterexample — `injectRuntimeHelpers` is not idempotent.  On an
already-injected document the replacement regex matches the bridge without
its leading newline but re-inserts the template with it, so the second
application adds one byte. -/
theorem C7_counterexample :
    injectRuntimeHelpers (injectRuntimeHelpers shellDoc defaultModelStr defaultAppId)
        defaultModelStr defaultAppId ≠
      injectRuntimeHelpers shellDoc defaultModelStr defaultAppId := by
  intro h
  have ht : listEqB (injectRuntimeHelpers injected1 defaultModelStr defaultAppId)
      injected1 = true := (listEqB_iff _ _).mpr h
  have hf : listEqB (injectRuntimeHelpers injected1 defaultModelStr defaultAppId)
      injected1 = false := by decide
  rw [hf] at ht
  exact Bool.false_ne_true ht

/-- C7 (amended): `ensureCspMeta` is idempotent for every document, but
`injectRuntimeHelpers` is not byte-idempotent: re-applying it to an
injected document inserts exactly one extra newline before the bridge
script, as the two concrete equalities show. -/
theorem C7_amended :
    (∀ html : Str, ensureCspMeta (ensureCspMeta html) = ensureCspMeta html) ∧
    injectRuntimeHelpers shellDoc defaultModelStr defaultAppId =
      "<html><body>".toList ++ helperScriptFor defaultModelStr defaultAppId ++
        "\n</body></html>".toList ∧
    injectRuntimeHelpers injected1 defaultModelStr defaultAppId =
      "<html><body>\n".toList ++ helperScriptFor defaultModelStr defaultAppId ++
        "\n</body></html>".toList :=
  ⟨ensureCspMeta_idem, (listEqB_iff _ _).mp (by decide), (listEqB_iff _ _).mp (by decide)⟩

/-! ## C1 / C2: the scanner theorems -/

/-- A pattern with matches that the leniency does not suppress yields its
violation. -/
theorem patternVerdict_of_matches (code : Str) (p : BannedPattern)
    (hms : scanMatches p code ≠ [])
    (hfam : p.name ∈ fetchFamily → allEmptyAt (scanMatches p code) = false) :
    patternVerdict code p = some ⟨p.name, (scanMatches p code).length⟩ := by
  have hE : (scanMatches p code).isEmpty = false := by
    cases hE : (scanMatches p code).isEmpty with
    | false => rfl
    | true => exact absurd (List.isEmpty_iff.mp hE) hms
  rw [patternVerdict, hE]
  by_cases hMem : p.name ∈ fetchFamily
  · rw [hfam hMem]
    simp [hMem]
  · simp [hMem]

/-- C1: scanner completeness with the empty-URL leniency.  First part: if
the stripped executable code still matches a banned call pattern, and (for
the fetch family) not every occurrence is followed within the 20-character
window by an empty string literal, the scan reports that pattern and fails.
Second part: when every banned pattern either has no match or is a
fetch-family pattern whose occurrences are all empty-URL placeholders, and
no banned tag occurs, the scan passes. -/
theorem C1_scanner_completeness :
    (∀ (html : Str) (p : BannedPattern), p ∈ BANNED_PATTERNS →
      scanMatches p (stripCommentsAndStrings (extractExecutableCode html)) ≠ [] →
      (p.name ∈ fetchFamily →
        allEmptyAt (scanMatches p (stripCommentsAndStrings (extractExecutableCode html))) = false) →
      (∃ v ∈ (scanForSecurityViolations html).violations, v.pattern = p.name) ∧
        (scanForSecurityViolations html).passed = false) ∧
    (∀ html : Str,
      (∀ p ∈ BANNED_PATTERNS,
        scanMatches p (stripCommentsAndStrings (extractExecutableCode html)) = [] ∨
          (p.name ∈ fetchFamily ∧
            allEmptyAt (scanMatches p (stripCommentsAndStrings (extractExecutableCode html))) = true)) →
      (∀ t ∈ BANNED_TAGS, scanMatches t html = []) →
      (scanForSecurityViolations html).passed = true) := by
  constructor
  · intro html p hp hms hfam
    have hv : (⟨p.name, (scanMatches p
        (stripCommentsAndStrings (extractExecutableCode html))).length⟩ : Violation) ∈
        patternViolations (stripCommentsAndStrings (extractExecutableCode html)) :=
      List.mem_filterMap.mpr ⟨p, hp, patternVerdict_of_matches _ p hms hfam⟩
    have hmem : (⟨p.name, (scanMatches p
        (stripCommentsAndStrings (extractExecutableCode html))).length⟩ : Violation) ∈
        (scanForSecurityViolations html).violations := by
      rw [scanForSecurityViolations]
      exact List.mem_append_right _ hv
    refine ⟨⟨_, hmem, rfl⟩, ?_⟩
    rw [scanForSecurityViolations] at hmem ⊢
    cases hE : (tagViolations html ++ patternViolations
        (stripCommentsAndStrings (extractExecutableCode html))).isEmpty with
    | false => rfl
    | true =>
      rw [List.isEmpty_iff.mp hE] at hmem
      cases hmem
  · intro html hpat htag
    have h1 : patternViolations (stripCommentsAndStrings (extractExecutableCode html)) = [] := by
      refine List.filterMap_eq_nil.mpr (fun p hp => ?_)
      rcases hpat p hp with h | ⟨hm, ha⟩
      · rw [patternVerdict, h]
        rfl
      · rw [patternVerdict]
        cases hE : (scanMatches p
            (stripCommentsAndStrings (extractExecutableCode html))).isEmpty with
        | true => rfl
        | false => simp [hm, ha]
    have h2 : tagViolations html = [] := by
      refine List.filterMap_eq_nil.mpr (fun t ht => ?_)
      rw [tagVerdict, htag t ht]
      rfl
    rw [scanForSecurityViolations, h1, h2]
    rfl

/-- C1 witness document: a real `eval(` call in a script body. -/
def evalDoc : Str := "<html><script>eval(x)</script></html>".toList

/-- C1 witness document: the empty-URL placeholder of scenario S4. -/
def fetchEmptyDoc : Str := "<html><script>fetch(\"\")</script></html>".toList

/-- Witness for C1 at concrete documents: `eval(x)` is reported and fails
the scan; a document whose only banned occurrence is `fetch("")` passes. -/
theorem C1_witness :
    ((∃ v ∈ (scanForSecurityViolations evalDoc).violations, v.pattern = "eval()") ∧
      (scanForSecurityViolations evalDoc).passed = false) ∧
    (scanForSecurityViolations fetchEmptyDoc).passed = true := by
  constructor
  · exact C1_scanner_completeness.1 evalDoc
      ⟨"eval()", "Remove eval, use safe alternatives", mEvalCall⟩
      (by simp [BANNED_PATTERNS]) (by decide)
      (fun hmem => absurd hmem (by decide))
  · exact C1_scanner_completeness.2 fetchEmptyDoc (by decide) (by decide)

/-- C2 counterexample document: the only occurrence of a banned identifier
(`<iframe>`) sits inside a string literal in a script body. -/
def iframeStrDoc : Str :=
  "<!DOCTYPE html><html><script>var s = \"<iframe>\";</script></html>".toList

/-- C2: counterexample — a document whose only banned occurrence is the tag
name `<iframe>` inside a string literal still fails the scan, because the
banned-tag scan runs on the raw HTML before any stripping; so the claim
that such documents always produce no violations is false. -/
theorem C2_counterexample :
    (∀ p ∈ BANNED_PATTERNS,
      scanMatches p (stripCommentsAndStrings (extractExecutableCode iframeStrDoc)) = []) ∧
    (scanForSecurityViolations iframeStrDoc).violations = [⟨"<iframe>", 1⟩] ∧
    (scanForSecurityViolations iframeStrDoc).passed = false ∧
    (runSecurityGate iframeStrDoc).passed = false := by
  refine ⟨by decide, by decide, by decide, by decide⟩

/-- C2 (amended): scanner soundness over comments and strings holds for the
banned CALL patterns: if after extraction and stripping no banned call
pattern matches, and additionally the raw HTML contains no banned tag
(tags are matched before stripping, even inside strings or comments), then
the scan reports no violations; with the structural prefix and closing tag
present, `runSecurityGate` passes. -/
theorem C2_amended (html : Str)
    (hpat : ∀ p ∈ BANNED_PATTERNS,
      scanMatches p (stripCommentsAndStrings (extractExecutableCode html)) = [])
    (htag : ∀ t ∈ BANNED_TAGS, scanMatches t html = []) :
    (scanForSecurityViolations html).violations = [] ∧
    (scanForSecurityViolations html).passed = true ∧
    ((checkBasicStructure html).valid = true → (runSecurityGate html).passed = true) := by
  have h1 : patternViolations (stripCommentsAndStrings (extractExecutableCode html)) = [] := by
    refine List.filterMap_eq_nil.mpr (fun p hp => ?_)
    rw [patternVerdict, hpat p hp]
    rfl
  have h2 : tagViolations html = [] := by
    refine List.filterMap_eq_nil.mpr (fun t ht => ?_)
    rw [tagVerdict, htag t ht]
    rfl
  refine ⟨?_, ?_, ?_⟩
  · rw [scanForSecurityViolations, h1, h2]
    rfl
  · rw [scanForSecurityViolations, h1, h2]
    rfl
  · intro hstruct
    rw [runSecurityGate]
    rw [scanForSecurityViolations, h1, h2]
    simp [hstruct]

/-- Witness for C2 (amended) at the S3-style document: banned names occur
only inside a string and a line comment, and the gate passes. -/
def s3Doc : Str :=
  "<!DOCTYPE html><html><script>const u = \"fetch(1)\"; // no fetch() here\n</script></html>".toList

/-- Witness for the amended C2 at `s3Doc`. -/
theorem C2_amended_witness :
    (scanForSecurityViolations s3Doc).violations = [] ∧
    (scanForSecurityViolations s3Doc).passed = true ∧
    (runSecurityGate s3Doc).passed = true := by
  have h := C2_amended s3Doc (by decide) (by decide)
  exact ⟨h.1, h.2.1, h.2.2 (by decide)⟩

/-! ## C6: the smoke-test decision -/

/-- A fatal observation in which the load had already succeeded and nothing
else was collected. -/
def fatalRun : BrowserRun :=
  .fatal
    {consoleErrors := [], missingSelectors := [], loadSuccess := true,
     criticalFailures := []}
    [] "browser crashed during page.evaluate".toList

/-- C6: counterexample — the pass/fail "iff" fails on a run that aborts
fatally after a successful load: every condition on the right holds
(load succeeded, no console errors, no missing selectors), yet
`runSmokeTests` returns `passed = false`. -/
theorem C6_counterexample :
    ¬((runSmokeTests fatalRun none).passed = true ↔
      ((runSmokeTests fatalRun none).results.loadSuccess = true ∧
        (runSmokeTests fatalRun none).results.consoleErrors.filter
          (fun e => !isHarmless e) = [] ∧
        (∀ sel ∈ (runSmokeTests fatalRun none).results.missingSelectors,
          sel.critical = false) ∧
        (runSmokeTests fatalRun none).results.missingSelectors.length ≤ 3)) := by
  decide

/-- C6 (amended): the smoke-test decision.  If the browser dependency is
unavailable the result is a skipped pass; a fatal harness error always
fails (recording the message); and on a completed run the test passes iff
the load succeeded, no non-harmless console error was captured, no missing
derived selector is critical, and at most three selectors are missing. -/
theorem C6_amended :
    (∀ plan, (runSmokeTests .unavailable plan).passed = true ∧
      (runSmokeTests .unavailable plan).results.skipped = true) ∧
    (∀ sofar coll msg plan,
      (runSmokeTests (.fatal sofar coll msg) plan).passed = false ∧
      (runSmokeTests (.fatal sofar coll msg) plan).results.fatalError = some msg) ∧
    (∀ obs plan,
      (runSmokeTests (.completed obs) plan).passed = true ↔
        (obs.loadSuccess = true ∧
          obs.consoleErrors.filter (fun e => !isHarmless e) = [] ∧
          (∀ sel ∈ (derivedOf plan).filter (fun sel => !obs.dom sel.selector),
            sel.critical = false) ∧
          ((derivedOf plan).filter (fun sel => !obs.dom sel.selector)).length ≤ 3)) := by
  refine ⟨fun plan => ⟨rfl, rfl⟩, fun sofar coll msg plan => ⟨rfl, rfl⟩,
    fun obs plan => ?_⟩
  show (obs.loadSuccess &&
      !(!(obs.consoleErrors.filter (fun e => !isHarmless e)).isEmpty) &&
      !(((derivedOf plan).filter (fun sel => !obs.dom sel.selector)).any (·.critical)) &&
      !(decide (((derivedOf plan).filter (fun sel => !obs.dom sel.selector)).length > 3)) &&
      ((((derivedOf plan).filter (fun sel => !obs.dom sel.selector)).filter
          (·.critical)).map
        (fun sel => "Missing critical element: ".toList ++ sel.selector)).isEmpty) = true ↔ _
  constructor
  · intro h
    rw [Bool.and_eq_true, Bool.and_eq_true, Bool.and_eq_true, Bool.and_eq_true] at h
    obtain ⟨⟨⟨⟨hl, hA⟩, _⟩, hC⟩, hD⟩ := h
    rw [Bool.not_not] at hA
    have hfil : ((derivedOf plan).filter (fun sel => !obs.dom sel.selector)).filter
        (·.critical) = [] := List.map_eq_nil_iff.mp (List.isEmpty_iff.mp hD)
    refine ⟨hl, List.isEmpty_iff.mp hA, ?_, ?_⟩
    · intro sel hs
      have := List.filter_eq_nil_iff.mp hfil sel hs
      revert this
      cases sel.critical <;> simp
    · rw [Bool.not_eq_true', decide_eq_false_iff_not] at hC
      omega
  · rintro ⟨hl, hE, hcrit, hlen⟩
    rw [Bool.and_eq_true, Bool.and_eq_true, Bool.and_eq_true, Bool.and_eq_true]
    refine ⟨⟨⟨⟨hl, ?_⟩, ?_⟩, ?_⟩, ?_⟩
    · rw [Bool.not_not, hE]
      rfl
    · rw [Bool.not_eq_true']
      rw [List.any_eq_false]
      intro sel hs
      rw [hcrit sel hs]
      simp
    · rw [Bool.not_eq_true', decide_eq_false_iff_not]
      omega
    · have : ((derivedOf plan).filter (fun sel => !obs.dom sel.selector)).filter
          (·.critical) = [] := by
        rw [List.filter_eq_nil_iff]
        intro sel hs
        rw [hcrit sel hs]
        simp
      rw [this]
      rfl

/-! ## C10: injection vs the gate -/

/-- The C10 counterexample document: the first `</body>` of the document
sits inside an `onclick` attribute, so the bridge is spliced into the
attribute value; re-parsing then cuts the handler capture at the bridge's
`id="` quote and a second handler match exposes a raw `fetch(u,v)`. -/
def hCEdoc : Str :=
  "<!DOCTYPE html><body><div onclick=\"if(a</body>b)\x7b\x7d onq=\x27fetch(u,v)\x27\"></div></body></html>".toList

/-- C10: counterexample — a document that passes `runSecurityGate` but
fails it after `injectRuntimeHelpers`. -/
theorem C10_counterexample :
    (runSecurityGate hCEdoc).passed = true ∧
    (runSecurityGate (injectRuntimeHelpers hCEdoc defaultModelStr defaultAppId)).passed = false :=
  ⟨by decide, by decide⟩

/-- The plain well-formed shell. -/
def benignShell : Str := "<!DOCTYPE html><html><head></head><body></body></html>".toList

/-- C10 (amended): bridge injection preserves the gate on documents whose
insertion point is a genuine top-level `</body>` — concretely, the plain
shell passes the gate before and after injection (every `fetch(` the bridge
introduces is suppressed by the empty-URL leniency after string stripping). -/
theorem C10_amended :
    (runSecurityGate benignShell).passed = true ∧
    (runSecurityGate (injectRuntimeHelpers benignShell defaultModelStr defaultAppId)).passed = true :=
  ⟨by decide, by decide⟩

/-! ## Failure-memory helper lemmas -/

/-- `pushNew` only ever appends. -/
theorem pushNew_grows [DecidableEq α] (xs : List α) (m : α) : xs <+: pushNew xs m := by
  rw [pushNew]
  split
  · exact List.prefix_refl _
  · exact List.prefix_append _ _

/-- `pushNewAll` only ever appends. -/
theorem pushNewAll_grows [DecidableEq α] (xs ys : List α) : xs <+: pushNewAll xs ys := by
  induction ys generalizing xs with
  | nil => exact List.prefix_refl _
  | cons y t ih => exact (pushNew_grows xs y).trans (ih (pushNew xs y))

/-- `pushNew` never introduces a duplicate. -/
theorem pushNew_nodup [DecidableEq α] {xs : List α} (h : xs.Nodup) (m : α) :
    (pushNew xs m).Nodup := by
  rw [pushNew]
  split
  · exact h
  · next hm => simp [List.nodup_append, h, hm]

/-- `pushNewAll` preserves freedom from duplicates. -/
theorem pushNewAll_nodup [DecidableEq α] {xs : List α} (h : xs.Nodup) (ys : List α) :
    (pushNewAll xs ys).Nodup := by
  induction ys generalizing xs with
  | nil => exact h
  | cons y t ih => exact ih (pushNew_nodup h y)

/-- The pushed element is present afterwards. -/
theorem pushNew_mem_self [DecidableEq α] (xs : List α) (m : α) : m ∈ pushNew xs m := by
  rw [pushNew]
  split
  · assumption
  · exact List.mem_append_right _ (List.mem_singleton.mpr rfl)

/-- Every pushed element is present afterwards. -/
theorem pushNewAll_mem [DecidableEq α] (xs : List α) {ys : List α} {y : α}
    (h : y ∈ ys) : y ∈ pushNewAll xs ys := by
  induction ys generalizing xs with
  | nil => cases h
  | cons a t ih =>
    rcases List.mem_cons.mp h with rfl | hmem
    · exact (pushNewAll_grows (pushNew xs y) t).subset (pushNew_mem_self xs y)
    · exact ih (pushNew xs a) hmem

/-- A member of the joined list is a substring of the join. -/
theorem infix_joinSep (sep : Str) : ∀ {l : List Str} {x : Str}, x ∈ l → x <:+: joinSep sep l := by
  intro l
  induction l with
  | nil => intro x h; cases h
  | cons a t ih =>
    intro x h
    cases t with
    | nil =>
      rcases List.mem_cons.mp h with rfl | hmem
      · exact List.infix_refl _
      · cases hmem
    | cons b t2 =>
      rcases List.mem_cons.mp h with rfl | hmem
      · exact ⟨[], sep ++ joinSep sep (b :: t2), by simp [joinSep, List.append_assoc]⟩
      · refine (ih hmem).trans ⟨a ++ sep, [], by simp [joinSep, List.append_assoc]⟩

/-- An infix of `b` is an infix of `a ++ b`. -/
theorem infix_append_left {x b : Str} (a : Str) (h : x <:+: b) : x <:+: a ++ b :=
  h.trans ⟨a, [], by simp⟩

/-- An infix of `b` is an infix of `b ++ c`. -/
theorem infix_append_right {x b : Str} (c : Str) (h : x <:+: b) : x <:+: b ++ c :=
  h.trans ⟨[], c, by simp⟩

/-- A member of a list of strings is a substring of its concatenation. -/
theorem infix_flatten : ∀ {l : List Str} {x : Str}, x ∈ l → x <:+: l.flatten := by
  intro l
  induction l with
  | nil => intro x h; cases h
  | cons a t ih =>
    intro x h
    rcases List.mem_cons.mp h with rfl | hmem
    · exact infix_append_right _ (List.infix_refl x)
    · exact infix_append_left a (ih hmem)

/-! ## Trace monotonicity of the orchestrator -/

/-- Prefix order on the traces a run accumulates: every list-valued trace of
`s` is an initial segment of the corresponding trace of `t`. -/
def stepLE (s t : PState) : Prop :=
  s.securityErrors <+: t.securityErrors ∧
  s.planCritiqueIssues <+: t.planCritiqueIssues ∧
  s.codeCritiqueIssues <+: t.codeCritiqueIssues ∧
  s.failureReports <+: t.failureReports ∧
  s.history <+: t.history ∧
  s.events <+: t.events ∧
  s.calls <+: t.calls ∧
  s.writes <+: t.writes

theorem stepLE_refl (s : PState) : stepLE s s :=
  ⟨List.prefix_rfl, List.prefix_rfl, List.prefix_rfl, List.prefix_rfl,
   List.prefix_rfl, List.prefix_rfl, List.prefix_rfl, List.prefix_rfl⟩

theorem stepLE_trans {s t u : PState} (h1 : stepLE s t) (h2 : stepLE t u) : stepLE s u := by
  obtain ⟨a1, a2, a3, a4, a5, a6, a7, a8⟩ := h1
  obtain ⟨b1, b2, b3, b4, b5, b6, b7, b8⟩ := h2
  exact ⟨a1.trans b1, a2.trans b2, a3.trans b3, a4.trans b4, a5.trans b5, a6.trans b6,
    a7.trans b7, a8.trans b8⟩

theorem stepLE_addEvent {s t : PState} (h : stepLE s t) (ev : Event) :
    stepLE s (addEvent ev t) := by
  obtain ⟨a1, a2, a3, a4, a5, a6, a7, a8⟩ := h
  exact ⟨a1, a2, a3, a4, a5, a6.trans (List.prefix_append _ _), a7, a8⟩

theorem stepLE_addCall {s t : PState} (h : stepLE s t) (c : ExtCall) :
    stepLE s (addCall c t) := by
  obtain ⟨a1, a2, a3, a4, a5, a6, a7, a8⟩ := h
  exact ⟨a1, a2, a3, a4, a5, a6, a7.trans (List.prefix_append _ _), a8⟩

theorem stepLE_addWrites {s t : PState} (h : stepLE s t) (ws : List FileWrite) :
    stepLE s (addWrites ws t) := by
  obtain ⟨a1, a2, a3, a4, a5, a6, a7, a8⟩ := h
  exact ⟨a1, a2, a3, a4, a5, a6, a7, a8.trans (List.prefix_append _ _)⟩

theorem stepLE_addReport {s t : PState} (h : stepLE s t) (r : Report) :
    stepLE s (addReport r t) := by
  obtain ⟨a1, a2, a3, a4, a5, a6, a7, a8⟩ := h
  exact ⟨a1, a2, a3, a4.trans (List.prefix_append _ _), a5, a6, a7, a8⟩

theorem stepLE_addHist {s t : PState} (h : stepLE s t) (e : HistEntry) :
    stepLE s (addHist e t) := by
  obtain ⟨a1, a2, a3, a4, a5, a6, a7, a8⟩ := h
  exact ⟨a1, a2, a3, a4, a5.trans (List.prefix_append _ _), a6, a7, a8⟩

theorem stepLE_pushSecErrors {s t : PState} (h : stepLE s t) (names : List String) :
    stepLE s (pushSecErrors names t) := by
  obtain ⟨a1, a2, a3, a4, a5, a6, a7, a8⟩ := h
  exact ⟨a1.trans (pushNewAll_grows _ _), a2, a3, a4, a5, a6, a7, a8⟩

theorem stepLE_pushPlanIssues {s t : PState} (h : stepLE s t) (msgs : List Str) :
    stepLE s (pushPlanIssues msgs t) := by
  obtain ⟨a1, a2, a3, a4, a5, a6, a7, a8⟩ := h
  exact ⟨a1, a2.trans (pushNewAll_grows _ _), a3, a4, a5, a6, a7, a8⟩

theorem stepLE_pushCodeIssues {s t : PState} (h : stepLE s t) (msgs : List Str) :
    stepLE s (pushCodeIssues msgs t) := by
  obtain ⟨a1, a2, a3, a4, a5, a6, a7, a8⟩ := h
  exact ⟨a1, a2, a3.trans (pushNewAll_grows _ _), a4, a5, a6, a7, a8⟩

theorem stepLE_setLastFailure {s t : PState} (h : stepLE s t) (x : Str) :
    stepLE s (setLastFailure x t) := h

theorem stepLE_clearForReplan {s t : PState} (h : stepLE s t) :
    stepLE s (clearForReplan t) := h

theorem stepLE_approvePlanAt {s t : PState} (h : stepLE s t) (i : Nat) :
    stepLE s (approvePlanAt i t) := h

theorem stepLE_setPlanAndModel {s t : PState} (h : stepLE s t) (p : PlanR) (rtm : Str) :
    stepLE s (setPlanAndModel p rtm t) := h

theorem stepLE_setHtml {s t : PState} (h : stepLE s t) (x : Str) :
    stepLE s (setHtml x t) := h

theorem stepLE_approveCodeAt {s t : PState} (h : stepLE s t) (i : Nat) :
    stepLE s (approveCodeAt i t) := h

theorem stepLE_passTestsAt {s t : PState} (h : stepLE s t) (i : Nat) :
    stepLE s (passTestsAt i t) := h

theorem stepLE_markSuccess {s t : PState} (h : stepLE s t) :
    stepLE s (markSuccess t) := h

theorem stepLE_codegenErrorStep {s t : PState} (h : stepLE s t) (maxIters iter : Nat)
    (prompt : Str) (aP aPC : Bool) (msg : Str) :
    stepLE s (codegenErrorStep maxIters iter prompt aP aPC msg t) := by
  simp only [codegenErrorStep]
  apply stepLE_addWrites
  apply stepLE_addHist
  apply stepLE_addEvent
  apply stepLE_addReport
  exact stepLE_setLastFailure h _

theorem stepLE_secFailStep {s t : PState} (h : stepLE s t) (maxIters iter : Nat)
    (prompt : Str) (aP aPC : Bool) (html : Str) (viols : List Violation) :
    stepLE s (secFailStep maxIters iter prompt aP aPC html viols t) := by
  simp only [secFailStep]
  apply stepLE_addWrites
  apply stepLE_addHist
  apply stepLE_addEvent
  apply stepLE_addReport
  apply stepLE_setLastFailure
  apply stepLE_clearForReplan
  exact stepLE_pushSecErrors h _

theorem stepLE_codeCritiqueStep {s t : PState} (h : stepLE s t) (e : IterEnv)
    (maxIters iter : Nat) : stepLE s (codeCritiqueStep e maxIters iter t) := by
  simp only [codeCritiqueStep]
  split
  · apply stepLE_addEvent
    apply stepLE_approveCodeAt
    exact stepLE_addCall (stepLE_addEvent h _) _
  · apply stepLE_addEvent
    apply stepLE_pushCodeIssues
    apply stepLE_pushCodeIssues
    exact stepLE_addCall (stepLE_addEvent h _) _

theorem stepLE_smokeStep {s t : PState} (h : stepLE s t) (maxIters iter : Nat)
    (sm : SmokeOutcome) : stepLE s (smokeStep maxIters iter sm t) := by
  simp only [smokeStep]
  split
  · apply stepLE_addEvent
    apply stepLE_passTestsAt
    exact stepLE_addCall (stepLE_addEvent h _) _
  · apply stepLE_addEvent
    apply stepLE_addHist
    apply stepLE_addReport
    apply stepLE_setLastFailure
    exact stepLE_addCall (stepLE_addEvent h _) _

theorem stepLE_sealStep {s t : PState} (h : stepLE s t) (iter : Nat) (prompt : Str)
    (aP aPC : Bool) (html : Str) : stepLE s (sealStep iter prompt aP aPC html t) := by
  simp only [sealStep]
  exact stepLE_addHist (stepLE_addWrites h _) _

theorem stepLE_planErrorStep {s t : PState} (h : stepLE s t) (maxIters iter : Nat)
    (prompt : Str) (msg : Str) : stepLE s (planErrorStep maxIters iter prompt msg t) := by
  simp only [planErrorStep]
  apply stepLE_addWrites
  apply stepLE_addHist
  apply stepLE_addEvent
  apply stepLE_addReport
  exact stepLE_setLastFailure h _

theorem stepLE_planRejectStep {s t : PState} (h : stepLE s t) (e : IterEnv)
    (maxIters iter : Nat) (prompt : Str) :
    stepLE s (planRejectStep e maxIters iter prompt t) := by
  simp only [planRejectStep]
  apply stepLE_addWrites
  apply stepLE_addHist
  apply stepLE_addEvent
  apply stepLE_addReport
  apply stepLE_setLastFailure
  exact stepLE_pushPlanIssues h _

/-- Freedom from duplicates of the three failure-memory lists. -/
def memNodup (s : PState) : Prop :=
  s.securityErrors.Nodup ∧ s.planCritiqueIssues.Nodup ∧ s.codeCritiqueIssues.Nodup

/-- Is this write the run-root `final.html`? -/
def isFinalHtmlWrite (w : FileWrite) : Bool :=
  match w.path with
  | .finalHtmlF => true
  | _ => false

/-- The `final.html` writes among a write trace. -/
def finalHtmlWrites (ws : List FileWrite) : List FileWrite := ws.filter isFinalHtmlWrite

/-- The invariant one loop turn preserves: traces only grow, the failure
memory stays duplicate-free, and no `final.html` write is issued. -/
def stepOk (s t : PState) : Prop :=
  stepLE s t ∧ (memNodup s → memNodup t) ∧
    finalHtmlWrites t.writes = finalHtmlWrites s.writes

theorem stepOk_refl (s : PState) : stepOk s s := ⟨stepLE_refl s, id, rfl⟩

theorem finalHtmlWrites_mkIterWrites (iter : Nat) (prompt : Str)
    (hasPlan hasPlanCrit : Bool) (html : Option Str) (hasCodeCrit hasSmoke : Bool) :
    finalHtmlWrites (mkIterWrites iter prompt hasPlan hasPlanCrit html hasCodeCrit hasSmoke)
      = [] := by
  simp only [mkIterWrites, finalHtmlWrites, List.filter_append]
  repeat' split
  all_goals simp [isFinalHtmlWrite]

theorem stepOk_addEvent {s t : PState} (h : stepOk s t) (ev : Event) :
    stepOk s (addEvent ev t) := ⟨stepLE_addEvent h.1 ev, h.2.1, h.2.2⟩

theorem stepOk_addCall {s t : PState} (h : stepOk s t) (c : ExtCall) :
    stepOk s (addCall c t) := ⟨stepLE_addCall h.1 c, h.2.1, h.2.2⟩

theorem stepOk_addReport {s t : PState} (h : stepOk s t) (r : Report) :
    stepOk s (addReport r t) := ⟨stepLE_addReport h.1 r, h.2.1, h.2.2⟩

theorem stepOk_addHist {s t : PState} (h : stepOk s t) (e : HistEntry) :
    stepOk s (addHist e t) := ⟨stepLE_addHist h.1 e, h.2.1, h.2.2⟩

theorem stepOk_addWrites {s t : PState} (h : stepOk s t) (ws : List FileWrite)
    (hw : finalHtmlWrites ws = []) : stepOk s (addWrites ws t) := by
  refine ⟨stepLE_addWrites h.1 ws, h.2.1, ?_⟩
  show finalHtmlWrites (t.writes ++ ws) = finalHtmlWrites s.writes
  rw [finalHtmlWrites, List.filter_append, ← finalHtmlWrites, ← finalHtmlWrites, hw,
    List.append_nil]
  exact h.2.2

theorem stepOk_pushSecErrors {s t : PState} (h : stepOk s t) (names : List String) :
    stepOk s (pushSecErrors names t) := by
  refine ⟨stepLE_pushSecErrors h.1 names, fun hn => ?_, h.2.2⟩
  exact ⟨pushNewAll_nodup (h.2.1 hn).1 names, (h.2.1 hn).2.1, (h.2.1 hn).2.2⟩

theorem stepOk_pushPlanIssues {s t : PState} (h : stepOk s t) (msgs : List Str) :
    stepOk s (pushPlanIssues msgs t) := by
  refine ⟨stepLE_pushPlanIssues h.1 msgs, fun hn => ?_, h.2.2⟩
  exact ⟨(h.2.1 hn).1, pushNewAll_nodup (h.2.1 hn).2.1 msgs, (h.2.1 hn).2.2⟩

theorem stepOk_pushCodeIssues {s t : PState} (h : stepOk s t) (msgs : List Str) :
    stepOk s (pushCodeIssues msgs t) := by
  refine ⟨stepLE_pushCodeIssues h.1 msgs, fun hn => ?_, h.2.2⟩
  exact ⟨(h.2.1 hn).1, (h.2.1 hn).2.1, pushNewAll_nodup (h.2.1 hn).2.2 msgs⟩

theorem stepOk_setLastFailure {s t : PState} (h : stepOk s t) (x : Str) :
    stepOk s (setLastFailure x t) := h

theorem stepOk_clearForReplan {s t : PState} (h : stepOk s t) :
    stepOk s (clearForReplan t) := h

theorem stepOk_approvePlanAt {s t : PState} (h : stepOk s t) (i : Nat) :
    stepOk s (approvePlanAt i t) := h

theorem stepOk_setPlanAndModel {s t : PState} (h : stepOk s t) (p : PlanR) (rtm : Str) :
    stepOk s (setPlanAndModel p rtm t) := h

theorem stepOk_setHtml {s t : PState} (h : stepOk s t) (x : Str) :
    stepOk s (setHtml x t) := h

theorem stepOk_approveCodeAt {s t : PState} (h : stepOk s t) (i : Nat) :
    stepOk s (approveCodeAt i t) := h

theorem stepOk_passTestsAt {s t : PState} (h : stepOk s t) (i : Nat) :
    stepOk s (passTestsAt i t) := h

theorem stepOk_markSuccess {s t : PState} (h : stepOk s t) :
    stepOk s (markSuccess t) := h

theorem stepOk_fallbackDecision {s t : PState} (h : stepOk s t) (maxIters iter : Nat)
    (pca : Bool) : stepOk s (fallbackDecision maxIters iter pca t).1 := by
  simp only [fallbackDecision]
  split
  · exact stepOk_addEvent h _
  · split
    · split
      · exact stepOk_addEvent (stepOk_markSuccess h) _
      · exact h
    · exact h

theorem stepOk_codegenErrorStep {s t : PState} (h : stepOk s t) (maxIters iter : Nat)
    (prompt : Str) (aP aPC : Bool) (msg : Str) :
    stepOk s (codegenErrorStep maxIters iter prompt aP aPC msg t) := by
  simp only [codegenErrorStep]
  refine stepOk_addWrites ?_ _ (finalHtmlWrites_mkIterWrites _ _ _ _ _ _ _)
  apply stepOk_addHist
  apply stepOk_addEvent
  apply stepOk_addReport
  exact stepOk_setLastFailure h _

theorem stepOk_secFailStep {s t : PState} (h : stepOk s t) (maxIters iter : Nat)
    (prompt : Str) (aP aPC : Bool) (html : Str) (viols : List Violation) :
    stepOk s (secFailStep maxIters iter prompt aP aPC html viols t) := by
  simp only [secFailStep]
  refine stepOk_addWrites ?_ _ (finalHtmlWrites_mkIterWrites _ _ _ _ _ _ _)
  apply stepOk_addHist
  apply stepOk_addEvent
  apply stepOk_addReport
  apply stepOk_setLastFailure
  apply stepOk_clearForReplan
  exact stepOk_pushSecErrors h _

theorem stepOk_codeCritiqueStep {s t : PState} (h : stepOk s t) (e : IterEnv)
    (maxIters iter : Nat) : stepOk s (codeCritiqueStep e maxIters iter t) := by
  simp only [codeCritiqueStep]
  split
  · apply stepOk_addEvent
    apply stepOk_approveCodeAt
    exact stepOk_addCall (stepOk_addEvent h _) _
  · apply stepOk_addEvent
    apply stepOk_pushCodeIssues
    apply stepOk_pushCodeIssues
    exact stepOk_addCall (stepOk_addEvent h _) _

theorem stepOk_smokeStep {s t : PState} (h : stepOk s t) (maxIters iter : Nat)
    (sm : SmokeOutcome) : stepOk s (smokeStep maxIters iter sm t) := by
  simp only [smokeStep]
  split
  · apply stepOk_addEvent
    apply stepOk_passTestsAt
    exact stepOk_addCall (stepOk_addEvent h _) _
  · apply stepOk_addEvent
    apply stepOk_addHist
    apply stepOk_addReport
    apply stepOk_setLastFailure
    exact stepOk_addCall (stepOk_addEvent h _) _

theorem stepOk_sealStep {s t : PState} (h : stepOk s t) (iter : Nat) (prompt : Str)
    (aP aPC : Bool) (html : Str) : stepOk s (sealStep iter prompt aP aPC html t) := by
  simp only [sealStep]
  apply stepOk_addHist
  exact stepOk_addWrites h _ (finalHtmlWrites_mkIterWrites _ _ _ _ _ _ _)

theorem stepOk_planErrorStep {s t : PState} (h : stepOk s t) (maxIters iter : Nat)
    (prompt : Str) (msg : Str) : stepOk s (planErrorStep maxIters iter prompt msg t) := by
  simp only [planErrorStep]
  refine stepOk_addWrites ?_ _ (finalHtmlWrites_mkIterWrites _ _ _ _ _ _ _)
  apply stepOk_addHist
  apply stepOk_addEvent
  apply stepOk_addReport
  exact stepOk_setLastFailure h _

theorem stepOk_planRejectStep {s t : PState} (h : stepOk s t) (e : IterEnv)
    (maxIters iter : Nat) (prompt : Str) :
    stepOk s (planRejectStep e maxIters iter prompt t) := by
  simp only [planRejectStep]
  refine stepOk_addWrites ?_ _ (finalHtmlWrites_mkIterWrites _ _ _ _ _ _ _)
  apply stepOk_addHist
  apply stepOk_addEvent
  apply stepOk_addReport
  apply stepOk_setLastFailure
  exact stepOk_pushPlanIssues h _

/-- The code phases preserve the per-turn invariant. -/
theorem runCodePhases_stepOk (e : IterEnv) (maxIters : Nat) (prompt runId : Str)
    (iter : Nat) (aP aPC pca : Bool) (s1 : PState) :
    stepOk s1 (runCodePhases e maxIters prompt runId iter aP aPC pca s1).1 := by
  simp only [runCodePhases]
  split
  · apply stepOk_codegenErrorStep
    split
    · exact stepOk_addCall (stepOk_addEvent (stepOk_refl _) _) _
    · exact stepOk_addCall (stepOk_addEvent (stepOk_refl _) _) _
  · split <;> split
    all_goals first
      | (apply stepOk_secFailStep
         apply stepOk_setHtml
         exact stepOk_addCall (stepOk_addEvent (stepOk_refl _) _) _)
      | (apply stepOk_fallbackDecision
         apply stepOk_sealStep
         apply stepOk_smokeStep
         apply stepOk_codeCritiqueStep
         apply stepOk_setHtml
         exact stepOk_addCall (stepOk_addEvent (stepOk_refl _) _) _)

theorem stepOk_trans {s t u : PState} (h1 : stepOk s t) (h2 : stepOk t u) : stepOk s u :=
  ⟨stepLE_trans h1.1 h2.1, fun hn => h2.2.1 (h1.2.1 hn), h2.2.2.trans h1.2.2⟩

/-- If `t` extends `s` invariantly, so does any code-phase continuation
from `t`. -/
theorem stepOk_runCodePhases {s t : PState} (h : stepOk s t) (e : IterEnv)
    (maxIters : Nat) (prompt runId : Str) (iter : Nat) (aP aPC pca : Bool) :
    stepOk s (runCodePhases e maxIters prompt runId iter aP aPC pca t).1 :=
  stepOk_trans h (runCodePhases_stepOk e maxIters prompt runId iter aP aPC pca t)

/-- One loop turn preserves the per-turn invariant. -/
theorem runIteration_stepOk (e : IterEnv) (maxIters : Nat) (prompt runId : Str)
    (iter : Nat) (s0 : PState) :
    stepOk s0 (runIteration e maxIters prompt runId iter s0).1 := by
  simp only [runIteration]
  split
  · exact stepOk_runCodePhases (stepOk_addEvent (stepOk_refl _) _) e maxIters prompt runId
      iter false false false
  · split
    · apply stepOk_planErrorStep
      exact stepOk_addCall (stepOk_addEvent (stepOk_addEvent (stepOk_refl _) _) _) _
    · split
      · apply stepOk_runCodePhases
        apply stepOk_addEvent
        apply stepOk_approvePlanAt
        apply stepOk_addCall
        apply stepOk_addEvent
        apply stepOk_setPlanAndModel
        exact stepOk_addCall (stepOk_addEvent (stepOk_addEvent (stepOk_refl _) _) _) _
      · apply stepOk_planRejectStep
        apply stepOk_addCall
        apply stepOk_addEvent
        apply stepOk_setPlanAndModel
        exact stepOk_addCall (stepOk_addEvent (stepOk_addEvent (stepOk_refl _) _) _) _

/-- The whole remaining loop preserves the per-turn invariant. -/
theorem runLoop_stepOk (env : Nat → IterEnv) (maxIters : Nat) (prompt runId : Str) :
    ∀ (f i : Nat) (s : PState), stepOk s (runLoop env maxIters prompt runId f i s) := by
  intro f
  induction f with
  | zero => intro i s; exact stepOk_refl s
  | succ f ih =>
    intro i s
    simp only [runLoop]
    split
    · exact runIteration_stepOk _ _ _ _ _ _
    · exact stepOk_trans (runIteration_stepOk _ _ _ _ _ _) (ih _ _)

/-- The epilogue only appends writes. -/
theorem stepLE_pipelineEpilogue {s t : PState} (h : stepLE s t) :
    stepLE s (pipelineEpilogue t) := by
  obtain ⟨a1, a2, a3, a4, a5, a6, a7, a8⟩ := h
  refine ⟨a1, a2, a3, a4, a5, a6, a7, ?_⟩
  simp only [pipelineEpilogue]
  exact a8.trans (((List.prefix_append _ _).trans (List.prefix_append _ _)).trans
    (List.prefix_append _ _))

/-! ## Orchestrator claim analysis -/

theorem mem_calls_of_stepLE {c : ExtCall} {s t : PState} (h : stepLE s t)
    (hm : c ∈ s.calls) : c ∈ t.calls := h.2.2.2.2.2.2.1.subset hm

theorem addEvent_planApprovedAt (ev : Event) (s : PState) :
    (addEvent ev s).planApprovedAt = s.planApprovedAt := rfl

/-- When no plan is currently approved, the loop turn places a Planner call
carrying the rendered extra directions. -/
theorem planReq_mem (e : IterEnv) (m : Nat) (prompt runId : Str) (iter : Nat)
    {s0 : PState} (h : s0.planApprovedAt = none) :
    ExtCall.planReq iter (plannerExtraDirections s0) ∈
      (runIteration e m prompt runId iter s0).1.calls := by
  have hp : (addEvent (.iterE iter m "start" "") s0).planApprovedAt = none := h
  simp only [runIteration, hp]
  have hmem : ExtCall.planReq iter (plannerExtraDirections s0) ∈
      (addCall (.planReq iter (plannerExtraDirections
          (addEvent (.iterE iter m "start" "") s0)))
        (addEvent (.iterE iter m "plan" "working")
          (addEvent (.iterE iter m "start" "") s0))).calls := by
    show ExtCall.planReq iter (plannerExtraDirections s0) ∈ _ ++
      [ExtCall.planReq iter (plannerExtraDirections (addEvent (.iterE iter m "start" "") s0))]
    exact List.mem_append_right _ (List.mem_singleton.mpr rfl)
  split
  · exact mem_calls_of_stepLE (stepOk_planErrorStep (stepOk_refl _) m iter prompt _).1 hmem
  · split
    · exact mem_calls_of_stepLE
        ((stepOk_runCodePhases (stepOk_addEvent (stepOk_approvePlanAt
            (stepOk_addCall (stepOk_addEvent (stepOk_setPlanAndModel (stepOk_refl _) _ _) _) _)
            iter) _) e m prompt runId iter true true true).1) hmem
    · exact mem_calls_of_stepLE
        ((stepOk_planRejectStep (stepOk_addCall (stepOk_addEvent
            (stepOk_setPlanAndModel (stepOk_refl _) _ _) _) _) e m iter prompt).1) hmem

/-- The fallback decision never reports a security failure. -/
theorem fallbackDecision_ne_secFailed (m iter : Nat) (pca : Bool) (t : PState)
    (names : List String) : (fallbackDecision m iter pca t).2 ≠ .secFailed names := by
  simp only [fallbackDecision]
  split
  · simp
  · split
    · split <;> simp
    · simp

/-- A `secFailed` outcome of the code phases: the reactive resets and the
failure-memory append, described against the entry state. -/
theorem runCodePhases_secFailed (e : IterEnv) (m : Nat) (prompt runId : Str)
    (iter : Nat) (aP aPC pca : Bool) (s1 : PState) (names : List String)
    (h : (runCodePhases e m prompt runId iter aP aPC pca s1).2 = .secFailed names) :
    (runCodePhases e m prompt runId iter aP aPC pca s1).1.planApprovedAt = none ∧
    (runCodePhases e m prompt runId iter aP aPC pca s1).1.currentPlan = none ∧
    (runCodePhases e m prompt runId iter aP aPC pca s1).1.currentHtml = none ∧
    (runCodePhases e m prompt runId iter aP aPC pca s1).1.securityErrors =
      pushNewAll s1.securityErrors names := by
  rcases hE : e.llmReply with msg | raw
  · simp only [runCodePhases, hE] at h
    exact IterOutcome.noConfusion h
  · simp only [runCodePhases, hE] at h ⊢
    split at h
    · rename_i h1
      rw [if_pos h1]
      simp only [IterOutcome.secFailed.injEq] at h
      subst h
      refine ⟨?_, ?_, ?_, ?_⟩ <;> split <;> rfl
    · exact absurd h (fallbackDecision_ne_secFailed _ _ _ _ _)

/-- A `secFailed` outcome of a whole loop turn, lifted to `runIteration`. -/
theorem runIteration_secFailed (e : IterEnv) (m : Nat) (prompt runId : Str)
    (iter : Nat) (s : PState) (names : List String)
    (h : (runIteration e m prompt runId iter s).2 = .secFailed names) :
    (runIteration e m prompt runId iter s).1.planApprovedAt = none ∧
    (runIteration e m prompt runId iter s).1.currentPlan = none ∧
    (runIteration e m prompt runId iter s).1.currentHtml = none ∧
    (runIteration e m prompt runId iter s).1.securityErrors =
      pushNewAll s.securityErrors names := by
  simp only [runIteration, addEvent_planApprovedAt] at h ⊢
  rcases hP : s.planApprovedAt with _ | k
  all_goals simp only [hP] at h ⊢
  · rcases hE2 : e.planResult with msg | plan
    all_goals simp only [hE2] at h ⊢
    · exact IterOutcome.noConfusion h
    · rcases hA : e.planCritique.approved
      all_goals simp only [hA] at h ⊢
      · rw [if_neg Bool.false_ne_true] at h
        exact IterOutcome.noConfusion h
      · rw [if_pos trivial] at h ⊢
        have H := runCodePhases_secFailed e m prompt runId iter true true true _ names h
        exact ⟨H.1, H.2.1, H.2.2.1, by rw [H.2.2.2]; rfl⟩
  · have H := runCodePhases_secFailed e m prompt runId iter false false false _ names h
    exact ⟨H.1, H.2.1, H.2.2.1, by rw [H.2.2.2]; rfl⟩

/-- C3: whenever the security scan hard-fails a loop turn, the violation
names are appended (deduplicated) to the failure memory, the approved-plan
marker, current plan and current HTML are all cleared, and the following
iteration from the resulting state begins with a fresh Planner call. -/
theorem C3_reactive_replanning (e : IterEnv) (m : Nat) (prompt runId : Str)
    (iter : Nat) (s : PState) (names : List String)
    (h : (runIteration e m prompt runId iter s).2 = .secFailed names) :
    (runIteration e m prompt runId iter s).1.planApprovedAt = none ∧
    (runIteration e m prompt runId iter s).1.currentPlan = none ∧
    (runIteration e m prompt runId iter s).1.currentHtml = none ∧
    s.securityErrors <+: (runIteration e m prompt runId iter s).1.securityErrors ∧
    (∀ n ∈ names, n ∈ (runIteration e m prompt runId iter s).1.securityErrors) ∧
    ∀ e2 : IterEnv, ExtCall.planReq (iter + 1)
        (plannerExtraDirections (runIteration e m prompt runId iter s).1) ∈
      (runIteration e2 m prompt runId (iter + 1)
        (runIteration e m prompt runId iter s).1).1.calls := by
  have H := runIteration_secFailed e m prompt runId iter s names h
  refine ⟨H.1, H.2.1, H.2.2.1, ?_, ?_, ?_⟩
  · rw [H.2.2.2]; exact pushNewAll_grows _ _
  · intro n hn; rw [H.2.2.2]; exact pushNewAll_mem _ hn
  · intro e2; exact planReq_mem e2 m prompt runId (iter + 1) H.1

/-- A minimal plan returned by the Planner in concrete runs. -/
def okPlanW : PlanR := {title := "T".toList}

/-- A coder reply whose page calls `fetch(url)` in a script. -/
def badRawW : Str :=
  "<!DOCTYPE html><html><head></head><body><script>fetch(url)</script></body></html>".toList

/-- A benign coder reply. -/
def goodRawW : Str := "<!DOCTYPE html><html><head></head><body></body></html>".toList

/-- An iteration environment whose coder reply violates the network ban. -/
def eC3 : IterEnv :=
  {planResult := .ok okPlanW, planCritique := ⟨true, []⟩, llmReply := .ok badRawW,
   codeCritique := ⟨true, [], []⟩, smoke := .unavailable}

/-- Witness for C3 at a concrete run: the first iteration fails the gate on
`fetch()` and every consequence of `C3_reactive_replanning` holds. -/
theorem C3_witness :
    ((runIteration eC3 3 "p".toList "r".toList 1 {}).2 = .secFailed ["fetch()"]) ∧
    ((runIteration eC3 3 "p".toList "r".toList 1 {}).1.planApprovedAt = none ∧
     (runIteration eC3 3 "p".toList "r".toList 1 {}).1.currentPlan = none ∧
     (runIteration eC3 3 "p".toList "r".toList 1 {}).1.currentHtml = none ∧
     ({} : PState).securityErrors <+:
       (runIteration eC3 3 "p".toList "r".toList 1 {}).1.securityErrors ∧
     (∀ n ∈ ["fetch()"], n ∈
       (runIteration eC3 3 "p".toList "r".toList 1 {}).1.securityErrors) ∧
     ∀ e2 : IterEnv, ExtCall.planReq 2
         (plannerExtraDirections (runIteration eC3 3 "p".toList "r".toList 1 {}).1) ∈
       (runIteration e2 3 "p".toList "r".toList 2
         (runIteration eC3 3 "p".toList "r".toList 1 {}).1).1.calls) := by
  have h : (runIteration eC3 3 "p".toList "r".toList 1 {}).2 = .secFailed ["fetch()"] := by
    decide
  exact ⟨h, C3_reactive_replanning eC3 3 "p".toList "r".toList 1 {} ["fetch()"] h⟩

/-- C8: one loop turn only appends to the three failure-memory lists and
keeps them duplicate-free. -/
theorem C8_failure_memory (e : IterEnv) (m : Nat) (prompt runId : Str) (iter : Nat)
    (s : PState)
    (hn : s.securityErrors.Nodup ∧ s.planCritiqueIssues.Nodup ∧ s.codeCritiqueIssues.Nodup) :
    (s.securityErrors <+: (runIteration e m prompt runId iter s).1.securityErrors ∧
     s.planCritiqueIssues <+: (runIteration e m prompt runId iter s).1.planCritiqueIssues ∧
     s.codeCritiqueIssues <+: (runIteration e m prompt runId iter s).1.codeCritiqueIssues) ∧
    ((runIteration e m prompt runId iter s).1.securityErrors.Nodup ∧
     (runIteration e m prompt runId iter s).1.planCritiqueIssues.Nodup ∧
     (runIteration e m prompt runId iter s).1.codeCritiqueIssues.Nodup) := by
  have H := runIteration_stepOk e m prompt runId iter s
  exact ⟨⟨H.1.1, H.1.2.1, H.1.2.2.1⟩, H.2.1 hn⟩

/-- An iteration environment whose Planner call fails outright. -/
def eC8 : IterEnv :=
  {planResult := .error "boom".toList, planCritique := ⟨true, []⟩, llmReply := .error [],
   codeCritique := ⟨true, [], []⟩, smoke := .unavailable}

/-- Witness for C8 at a concrete loop turn from the initial state. -/
theorem C8_witness :
    ((({} : PState).securityErrors.Nodup ∧ ({} : PState).planCritiqueIssues.Nodup ∧
        ({} : PState).codeCritiqueIssues.Nodup)) ∧
    ((({} : PState).securityErrors <+:
        (runIteration eC8 3 "p".toList "r".toList 1 {}).1.securityErrors ∧
      ({} : PState).planCritiqueIssues <+:
        (runIteration eC8 3 "p".toList "r".toList 1 {}).1.planCritiqueIssues ∧
      ({} : PState).codeCritiqueIssues <+:
        (runIteration eC8 3 "p".toList "r".toList 1 {}).1.codeCritiqueIssues) ∧
     ((runIteration eC8 3 "p".toList "r".toList 1 {}).1.securityErrors.Nodup ∧
      (runIteration eC8 3 "p".toList "r".toList 1 {}).1.planCritiqueIssues.Nodup ∧
      (runIteration eC8 3 "p".toList "r".toList 1 {}).1.codeCritiqueIssues.Nodup)) := by
  have hn : ({} : PState).securityErrors.Nodup ∧ ({} : PState).planCritiqueIssues.Nodup ∧
      ({} : PState).codeCritiqueIssues.Nodup :=
    ⟨List.nodup_nil, List.nodup_nil, List.nodup_nil⟩
  exact ⟨hn, C8_failure_memory eC8 3 "p".toList "r".toList 1 {} hn⟩

/-- An environment whose coder LLM is down; its plans are fine. -/
def eC5 : Nat → IterEnv := fun _ =>
  {planResult := .ok okPlanW, planCritique := ⟨true, []⟩, llmReply := .error "down".toList,
   codeCritique := ⟨true, [], []⟩, smoke := .unavailable}

/-- C5 counterexample: a run in which, at iteration 2 of 2 (past the 75%
threshold), a plan is approved, success has not been declared and the
iteration's failure reports carry no high-severity issue and no security
entry — yet no fallback success is declared, because the fallback block is
reachable only after a failing smoke run and this iteration failed in
code generation. -/
theorem C5_counterexample :
    (runDSStarPipeline eC5 2 "p".toList "r".toList).success = false ∧
    (runDSStarPipeline eC5 2 "p".toList "r".toList).planApprovedAt = some 1 ∧
    decide (2 ≥ fallbackThreshold 2) = true ∧
    ((runDSStarPipeline eC5 2 "p".toList "r".toList).failureReports.filter
        (fun r => r.iter == 2)).all
      (fun r => !(r.issues.getD []).any (fun i => i.severity == "high".toList) &&
        !(r.phase == "security") && !(r.phase == "security_scan")) = true ∧
    Event.succ 2 true ∉ (runDSStarPipeline eC5 2 "p".toList "r".toList).events := by
  refine ⟨by decide, by decide, by decide, by decide, by decide⟩

/-- C5 (amended): at the fallback check — reached only after a failing,
unskipped smoke run — a fallback success is declared exactly when the
iteration has reached the 75%-of-budget threshold, the `hasHighIssues` test
is clear and a plan is approved (now or this turn); it then sets success
and emits the `fallback=true` event.  A report of phase `security_scan`
never triggers the `hasHighIssues` block, whose literal is `security`. -/
theorem C5_amended (m iter : Nat) (pca : Bool) (t : PState) (hs : t.success = false) :
    ((fallbackDecision m iter pca t).2 = .fallbackSuccess ↔
      (iter ≥ fallbackThreshold m ∧
        hasHighIssues t.failureReports iter = false ∧
        (t.planApprovedAt.isSome || pca) = true)) ∧
    ((fallbackDecision m iter pca t).2 = .fallbackSuccess →
      (fallbackDecision m iter pca t).1.success = true ∧
      Event.succ iter true ∈ (fallbackDecision m iter pca t).1.events) ∧
    (∀ r : Report, r.phase = "security_scan" →
      hasHighIssues [r] iter =
        ((r.iter == iter) &&
          (r.issues.getD []).any (fun i => i.severity == "high".toList))) := by
  have hneg : ¬(t.success = true) := by simp [hs]
  refine ⟨?_, ?_, ?_⟩
  · simp only [fallbackDecision]
    rw [if_neg hneg]
    by_cases hth : iter ≥ fallbackThreshold m
    · rw [if_pos (by simp [hth])]
      by_cases hb : (!hasHighIssues t.failureReports iter &&
          (t.planApprovedAt.isSome || pca)) = true
      · rw [if_pos hb]
        simp only [Bool.and_eq_true, Bool.not_eq_true'] at hb
        simp [hth, hb.1, hb.2]
      · rw [if_neg hb]
        simp only [Bool.and_eq_true, Bool.not_eq_true'] at hb
        simp only [ne_eq]
        constructor
        · intro hx; exact absurd hx (by simp)
        · rintro ⟨_, h2, h3⟩; exact absurd ⟨h2, h3⟩ hb
    · rw [if_neg (by simp [hth])]
      constructor
      · intro hx; exact absurd hx (by simp)
      · rintro ⟨h1, _, _⟩; exact absurd h1 hth
  · intro hf
    simp only [fallbackDecision] at hf ⊢
    rw [if_neg hneg] at hf ⊢
    by_cases hth : (decide (iter ≥ fallbackThreshold m)) = true
    · rw [if_pos hth] at hf ⊢
      by_cases hb : (!hasHighIssues t.failureReports iter &&
          (t.planApprovedAt.isSome || pca)) = true
      · rw [if_pos hb]
        exact ⟨rfl, List.mem_append_right _ (List.mem_singleton.mpr rfl)⟩
      · rw [if_neg hb] at hf
        exact absurd hf (by simp)
    · rw [if_neg hth] at hf
      exact absurd hf (by simp)
  · intro r hr
    simp [hasHighIssues, hr]

/-- Witness for `C5_amended` at a concrete state past the threshold. -/
theorem C5_amended_witness :
    (({} : PState).success = false) ∧
    (((fallbackDecision 4 3 true {}).2 = .fallbackSuccess ↔
      (3 ≥ fallbackThreshold 4 ∧
        hasHighIssues ({} : PState).failureReports 3 = false ∧
        (({} : PState).planApprovedAt.isSome || true) = true)) ∧
    ((fallbackDecision 4 3 true {}).2 = .fallbackSuccess →
      (fallbackDecision 4 3 true {}).1.success = true ∧
      Event.succ 3 true ∈ (fallbackDecision 4 3 true {}).1.events) ∧
    (∀ r : Report, r.phase = "security_scan" →
      hasHighIssues [r] 3 =
        ((r.iter == 3) &&
          (r.issues.getD []).any (fun i => i.severity == "high".toList)))) :=
  ⟨rfl, C5_amended 4 3 true {} rfl⟩

/-- The per-scenario environment of the C9 counterexample: a `fetch`
violation in iteration 1, a Planner outage in iteration 2. -/
def eC9 : Nat → IterEnv := fun i =>
  if i = 1 then
    {planResult := .ok okPlanW, planCritique := ⟨true, []⟩, llmReply := .ok badRawW,
     codeCritique := ⟨true, [], []⟩, smoke := .unavailable}
  else
    {planResult := .error "stop".toList, planCritique := ⟨true, []⟩,
     llmReply := .error [], codeCritique := ⟨true, [], []⟩, smoke := .unavailable}

/-- The extra directions the iteration-2 Planner call actually carries. -/
def exC9 : Str := "\n\nSECURITY RESTRICTIONS - DO NOT VIOLATE:\n❌ fetch()".toList

/-- The fix-hint line of the lookup table for `fetch()`. -/
def hintLineC9 : Str :=
  "❌ fetch() IS BANNED → Use window.geaRuntimeLLM() for AI calls".toList

/-- C9 counterexample: after a `fetch()` violation, the next Planner call's
extra directions hold the bare `❌ fetch()` line and not the lookup table's
fix-hint line, which the claim asserts. -/
theorem C9_counterexample :
    (runDSStarPipeline eC9 2 "p".toList "r".toList).calls.filterMap
        (fun c => match c with
          | ExtCall.planReq 2 ex => some ex
          | _ => none) = [exC9] ∧
    hasSub hintLineC9 exC9 = false ∧
    hasSub "❌ fetch()".toList exC9 = true := by
  refine ⟨by decide, by decide, by decide⟩

/-- C9 (amended): an accumulated security error is rendered as a bare
`❌ <name>` line before a Planner call; the fix-hint lookup rendering is
used before Patch calls (and, with a different fallback, in the fresh-Coder
prompt), and the table maps `fetch()` to the `window.geaRuntimeLLM` hint. -/
theorem C9_amended (s : PState) (e : String) (he : e ∈ s.securityErrors) :
    (("❌ ".toList ++ e.toList) <:+: plannerExtraDirections s) ∧
    (∀ lastSmoke : Option SmokeOutcome,
      renderSecFixLine e <:+: patchFixLines s lastSmoke) ∧
    (∀ errs : List String, e ∈ errs →
      renderSecExtraLine e <:+: coderSecurityExtra errs) ∧
    renderSecFixLine "fetch()" =
      "❌ fetch() IS BANNED → Use window.geaRuntimeLLM() for AI calls".toList := by
  refine ⟨?_, ?_, ?_, by decide⟩
  · apply infix_append_left
    exact infix_joinSep _ (List.mem_map_of_mem _ he)
  · intro lastSmoke
    simp only [patchFixLines]
    apply infix_joinSep
    refine List.mem_append_right _ ?_
    exact List.mem_map_of_mem _ he
  · intro errs hee
    simp only [coderSecurityExtra]
    rw [if_neg (by simp [List.isEmpty_iff]; rintro rfl; cases hee)]
    apply infix_append_right
    apply infix_append_right
    apply infix_append_left
    exact infix_flatten (List.mem_map_of_mem _ hee)

/-- A state whose failure memory records one `fetch()` violation. -/
def sC9 : PState := {securityErrors := ["fetch()"]}

/-- Witness for `C9_amended` at the state after a `fetch()` violation. -/
theorem C9_amended_witness :
    ("fetch()" ∈ sC9.securityErrors) ∧
    ((("❌ ".toList ++ "fetch()".toList) <:+: plannerExtraDirections sC9) ∧
    (∀ lastSmoke : Option SmokeOutcome,
      renderSecFixLine "fetch()" <:+: patchFixLines sC9 lastSmoke) ∧
    (∀ errs : List String, "fetch()" ∈ errs →
      renderSecExtraLine "fetch()" <:+: coderSecurityExtra errs) ∧
    renderSecFixLine "fetch()" =
      "❌ fetch() IS BANNED → Use window.geaRuntimeLLM() for AI calls".toList) := by
  have he : "fetch()" ∈ sC9.securityErrors := List.mem_singleton.mpr rfl
  exact ⟨he, C9_amended sC9 "fetch()" he⟩

/-- A fully successful one-iteration environment. -/
def eC4 : Nat → IterEnv := fun _ =>
  {planResult := .ok okPlanW, planCritique := ⟨true, []⟩, llmReply := .ok goodRawW,
   codeCritique := ⟨true, [], []⟩, smoke := .unavailable}

/-- C4 counterexample: a successful run writes `final.html` twice, not
exactly once. -/
theorem C4_counterexample :
    ((runDSStarPipeline eC4 1 "p".toList "r".toList).writes.filter isFinalHtmlWrite).length
      = 2 := by decide

/-- C4 (amended): a run writes `final.html` twice — once inside
`saveFinalOutputs` and once directly afterwards — when the final HTML is
truthy, with both writes holding the last transformed HTML, and never
otherwise. -/
theorem C4_amended (env : Nat → IterEnv) (m : Nat) (prompt runId : Str) :
    finalHtmlWrites (runDSStarPipeline env m prompt runId).writes =
      (match (runDSStarPipeline env m prompt runId).currentHtml with
       | some h => if h.isEmpty then [] else
           [(⟨.finalHtmlF, h⟩ : FileWrite), (⟨.finalHtmlF, h⟩ : FileWrite)]
       | none => []) := by
  have hloop := (runLoop_stepOk env m prompt runId m 1
    {events := [.start (String.mk runId) m]}).2.2
  simp only [runDSStarPipeline, pipelineEpilogue]
  generalize runLoop env m prompt runId m 1 _ = t at hloop ⊢
  have hz : finalHtmlWrites t.writes = [] := by
    rw [hloop]; rfl
  show finalHtmlWrites (t.writes ++ _ ++ _ ++ _) = _
  rw [finalHtmlWrites, List.filter_append, List.filter_append, List.filter_append,
    ← finalHtmlWrites, hz]
  rcases hH : t.currentHtml with _ | h
  · simp only [finalHtmlWrites]
    split <;> simp [isFinalHtmlWrite]
  · by_cases he : h.isEmpty
    · simp only [finalHtmlWrites, he, if_true]
      split <;> simp [isFinalHtmlWrite, he]
    · simp only [finalHtmlWrites, he, if_false]
      split <;> simp [isFinalHtmlWrite, he]

end GEA


